import Mathlib

/-!
# Verification of the geometry/feedback core

A shallow embedding of the repository's geometry and feedback pipeline:
`backend/utils/math_helpers.py`, `backend/services/normalizer.py`,
`backend/services/alignment_engine.py`, `backend/services/scoring_engine.py`
and `backend/services/cue_mapper.py`.

Conventions used throughout:
* Python floats are modelled as real numbers (`ℝ`); float literals such as
  `1e-8` keep their exact decimal value.
* A numpy `(n, k)` array is modelled as a rectangular `List (List ℝ)`
  (see `NArr`); a 2D point is a pair `Point2 = ℝ × ℝ`.
* Fallible code (Python `raise`, out-of-range indexing) is modelled with
  `Except`: `Except.error` marks a raised exception, `Except.ok` a normal
  return.  In-range indexing that Python's own loop bounds guarantee is
  modelled with `List.getD`.
* Python's stable `sorted(..., key=..., reverse=True)` is modelled by the
  stable insertion sort `sortDescBy`.
-/

noncomputable section

namespace MCH

/-! ## Basic vector helpers (`backend/utils/math_helpers.py`) -/

/-- `np.mean` of a 1-D list of reals. -/
def meanL (l : List ℝ) : ℝ := l.sum / l.length

/-- Componentwise difference `p1 - p2` of two numpy vectors. -/
def vecSub (p q : List ℝ) : List ℝ := List.zipWith (fun a b => a - b) p q

/-- `np.dot` of two vectors. -/
def dotL (p q : List ℝ) : ℝ := (List.zipWith (fun a b => a * b) p q).sum

/-- `np.linalg.norm` of a vector. -/
def normL (p : List ℝ) : ℝ := Real.sqrt (dotL p p)

/-- `euclidean_distance` from `math_helpers.py`:
`float(np.linalg.norm(p1 - p2))`. -/
def euclidean_distance (p q : List ℝ) : ℝ := normL (vecSub p q)

/-- `np.clip(x, lo, hi)`. -/
def clipR (x lo hi : ℝ) : ℝ := min (max x lo) hi

/-- `np.degrees`. -/
def degreesR (x : ℝ) : ℝ := x * 180 / Real.pi

/-- `angle_between_vectors` from `math_helpers.py`:
`degrees(arccos(clip(dot(v1, v2) / (norm(v1)*norm(v2) + 1e-8), -1, 1)))`. -/
def angle_between_vectors (v1 v2 : List ℝ) : ℝ :=
  degreesR (Real.arccos (clipR (dotL v1 v2 / (normL v1 * normL v2 + 1e-8)) (-1) 1))

/-- `compute_angle_at_joint` from `math_helpers.py`. -/
def compute_angle_at_joint (p1 p2 p3 : List ℝ) : ℝ :=
  angle_between_vectors (vecSub p1 p2) (vecSub p3 p2)

/-! ## 2-D points -/

/-- A 2-D point (one row of an `(n, 2)` coordinate array). -/
abbrev Point2 : Type := ℝ × ℝ

def padd (p q : Point2) : Point2 := (p.1 + q.1, p.2 + q.2)

def psub (p q : Point2) : Point2 := (p.1 - q.1, p.2 - q.2)

def psmul (s : ℝ) (p : Point2) : Point2 := (s * p.1, s * p.2)

def pneg (p : Point2) : Point2 := (-p.1, -p.2)

/-- Row-vector product `p @ R(θ).T` with `R(θ) = [[c, -s], [s, c]]`,
i.e. rotation of `p` by `θ`. -/
def rot2 (θ : ℝ) (p : Point2) : Point2 :=
  (Real.cos θ * p.1 - Real.sin θ * p.2, Real.sin θ * p.1 + Real.cos θ * p.2)

/-- `np.linalg.norm` of a 2-D point. -/
def normP (p : Point2) : ℝ := Real.sqrt (p.1 ^ 2 + p.2 ^ 2)

/-- Euclidean distance between two 2-D points. -/
def dist2 (p q : Point2) : ℝ := normP (psub p q)

/-- `np.arctan2 y x` (angle of the point `(x, y)`, in `(-π, π]`). -/
def atan2 (y x : ℝ) : ℝ :=
  if 0 < x then Real.arctan (y / x)
  else if x < 0 then
    (if 0 ≤ y then Real.arctan (y / x) + Real.pi else Real.arctan (y / x) - Real.pi)
  else if 0 < y then Real.pi / 2
  else if y < 0 then -(Real.pi / 2)
  else 0

/-! ## Rectangular arrays and safe indexing -/

/-- A rectangular numpy array of reals: `rows.length × ncols`. -/
structure NArr where
  rows : List (List ℝ)
  ncols : Nat
  wf : ∀ r ∈ rows, r.length = ncols

/-- `a.shape` of a 2-D numpy array. -/
def NArr.shape (a : NArr) : Nat × Nat := (a.rows.length, a.ncols)

/-- `a[:, :2]` — the first two columns, as points. -/
def NArr.pts (a : NArr) : List Point2 :=
  a.rows.map (fun r => (r.getD 0 0, r.getD 1 0))

/-- Python indexing `l[i]`: raises (`Except.error`) when out of range. -/
def idxE {α : Type} (l : List α) (i : Nat) : Except Unit α :=
  if h : i < l.length then .ok (l.get ⟨i, h⟩) else .error ()

/-! ## Python's stable `sorted(..., key=..., reverse=True)`

Both `get_top_error_joints` (scoring engine) and `generate_cues` (cue mapper)
call Python's `sorted` with a real-valued key and `reverse=True`.  Python's
sort is stable: elements with equal keys keep their original relative order.
We model it with a stable insertion sort. -/

variable {α : Type}

/-- Insert `c` before the first element whose key is `≤ key c`
(so `c` lands after every strictly greater element and before every
equal-or-smaller one — the stable descending position). -/
def insertDescBy (key : α → ℝ) (c : α) : List α → List α
  | [] => [c]
  | d :: ds => if key d ≤ key c then c :: d :: ds else d :: insertDescBy key c ds

/-- Stable descending sort by `key` — Python `sorted(l, key=key, reverse=True)`. -/
def sortDescBy (key : α → ℝ) (l : List α) : List α :=
  l.foldr (insertDescBy key) []

/-! ## Cue mapper (`backend/services/cue_mapper.py`) -/

/-- `CueCategory` enum. -/
inductive CueCategory
  | POSITION
  | ROTATION
  | SPREAD
  | CURL
  | TIMING
  | GLOBAL

/-- The `Cue` dataclass. -/
structure Cue where
  text : String
  category : CueCategory
  priority : ℝ
  affected_joints : List Nat
  icon : Option String
  direction : Option String

/-- `POSITION_THRESHOLD = 0.08`. -/
def POSITION_THRESHOLD : ℝ := 0.08

/-- `ANGLE_THRESHOLD = 15` (degrees). -/
def ANGLE_THRESHOLD : ℝ := 15

/-- `SPREAD_THRESHOLD = 0.1`. -/
def SPREAD_THRESHOLD : ℝ := 0.1

/-- The `CUE_TEMPLATES` dict (insertion order preserved). -/
def CUE_TEMPLATES : List (String × String) :=
  [("hand_too_high", "Lower your hand slightly"),
   ("hand_too_low", "Raise your hand"),
   ("hand_too_left", "Move hand to the right"),
   ("hand_too_right", "Move hand to the left"),
   ("wrist_rotate_cw", "Rotate wrist clockwise"),
   ("wrist_rotate_ccw", "Rotate wrist counter-clockwise"),
   ("fingers_too_closed", "Open your fingers wider"),
   ("fingers_too_open", "Close your fingers slightly"),
   ("thumb_position", "Adjust your thumb position"),
   ("index_curl", "Curl your index finger more"),
   ("index_extend", "Extend your index finger"),
   ("middle_curl", "Curl your middle finger"),
   ("middle_extend", "Extend your middle finger"),
   ("ring_curl", "Curl your ring finger"),
   ("ring_extend", "Extend your ring finger"),
   ("pinky_curl", "Curl your pinky"),
   ("pinky_extend", "Extend your pinky"),
   ("going_too_fast", "Slow down a bit"),
   ("going_too_slow", "Try to keep up with the pace"),
   ("almost_there", "Almost there! Small adjustment needed"),
   ("perfect", "Perfect! Keep it up!")]

/-- The five `FINGER_CHAINS` (same table in scoring engine and cue mapper). -/
def FINGER_CHAINS : List (List Nat) :=
  [[0, 1, 2, 3, 4], [0, 5, 6, 7, 8], [0, 9, 10, 11, 12],
   [0, 13, 14, 15, 16], [0, 17, 18, 19, 20]]

/-- Python's substring test `pat in s` (for the nonempty patterns used by
`template_to_cue`): `pat` occurs in `s` iff splitting on `pat` yields at
least two pieces. -/
def containsSub (s pat : String) : Bool := 2 ≤ (s.splitOn pat).length

/-- `error_to_score` from the scoring engine:
`max(0.0, min(100.0, 100.0 - k_scaling * error))`. -/
def error_to_score (k : ℝ) (error : ℝ) : ℝ := max 0 (min 100 (100 - k * error))

/-- `template_to_cue`. -/
def template_to_cue (template_key : String) (priority : ℝ)
    (affected_joints : List Nat) (direction : Option String) : Cue :=
  { text := ((CUE_TEMPLATES.lookup template_key).getD
      ((template_key.replace "_" " ").capitalize))
    category :=
      if containsSub template_key "hand_too" then .POSITION
      else if containsSub template_key "rotate" then .ROTATION
      else if containsSub template_key "fingers" then .SPREAD
      else if containsSub template_key "curl" || containsSub template_key "extend" then .CURL
      else if containsSub template_key "slow" || containsSub template_key "fast" then .TIMING
      else .GLOBAL
    priority := priority
    affected_joints := affected_joints
    icon := none
    direction := direction }

/-- Column means of an array — `np.mean(a, axis=0)`. -/
def colMeans (a : NArr) : List ℝ :=
  (List.range a.ncols).map (fun j => meanL (a.rows.map (fun r => r.getD j 0)))

/-- Helper for `np.argmax`: first index attaining the maximal absolute
value, scanning with a strict improvement test. -/
def argmaxAbsAux (best : ℝ × Nat) (i : Nat) : List ℝ → ℝ × Nat
  | [] => best
  | x :: xs => if |best.1| < |x| then argmaxAbsAux (x, i) (i + 1) xs
               else argmaxAbsAux best (i + 1) xs

/-- `np.argmax(np.abs(l))` — index of the first maximal `|entry|`. -/
def argmaxAbs : List ℝ → Nat
  | [] => 0
  | x :: xs => (argmaxAbsAux (x, 0) 1 xs).2

/-- `detect_position_error`: dominant-axis centroid offset over **all**
columns of the input arrays. -/
def detect_position_error (user expert : NArr) : Option (String × String) :=
  let diff := vecSub (colMeans user) (colMeans expert)
  let axis := argmaxAbs diff
  let direction := diff.getD axis 0
  if |direction| < POSITION_THRESHOLD then none
  else if axis = 1 then
    some (if direction < 0 then ("hand_too_low", "up") else ("hand_too_high", "down"))
  else
    some (if direction < 0 then ("hand_too_right", "left") else ("hand_too_left", "right"))

/-- `detect_rotation_error`: wrist→middle-MCP orientation difference. -/
def detect_rotation_error (user expert : NArr) : Except Unit (Option (String × String)) := do
  let wu ← idxE user.rows 0
  let we ← idxE expert.rows 0
  let mu ← idxE user.rows 9
  let em ← idxE expert.rows 9
  let vu := vecSub mu wu
  let ve := vecSub em we
  let au := degreesR (atan2 (vu.getD 1 0) (vu.getD 0 0))
  let ae := degreesR (atan2 (ve.getD 1 0) (ve.getD 0 0))
  let delta := au - ae
  pure (if |delta| < ANGLE_THRESHOLD then none
        else if 0 < delta then some ("wrist_rotate_ccw", "ccw")
        else some ("wrist_rotate_cw", "cw"))

/-- The fingertip pairs of `avg_spread`. -/
def spreadPairs : List (Nat × Nat) := [(4, 8), (8, 12), (12, 16), (16, 20)]

/-- Distances `‖points[a] - points[b]‖` over a list of index pairs. -/
def pairDists (a : NArr) : List (Nat × Nat) → Except Unit (List ℝ)
  | [] => .ok []
  | (i, j) :: rest => do
      let p ← idxE a.rows i
      let q ← idxE a.rows j
      let t ← pairDists a rest
      pure (euclidean_distance p q :: t)

/-- `avg_spread` (inner helper of `detect_spread_error`). -/
def avgSpread (a : NArr) : Except Unit ℝ := do
  let d ← pairDists a spreadPairs
  pure (meanL d)

/-- `detect_spread_error`: user/expert average fingertip spread ratio. -/
def detect_spread_error (user expert : NArr) : Except Unit (Option String) :=
  if [4, 8, 12, 16, 20].any (fun idx => user.rows.length ≤ max idx 0) then pure none
  else do
    let su ← avgSpread user
    let se ← avgSpread expert
    if se < 1e-6 then pure none
    else
      pure (if su / se < 1 - SPREAD_THRESHOLD then some "fingers_too_closed"
            else if 1 + SPREAD_THRESHOLD < su / se then some "fingers_too_open"
            else none)

/-- Finger names used by `_curl_cues`. -/
def finger_names : List String := ["thumb", "index", "middle", "ring", "pinky"]

/-- `_curl_cues`, iterating over `enumerate(FINGER_CHAINS)`. -/
def curlAux (user expert : NArr) (top : List Nat) :
    List (Nat × List Nat) → Except Unit (List Cue)
  | [] => .ok []
  | (fidx, chain) :: rest =>
    if (chain.any (fun j => top.contains j)) = false then curlAux user expert top rest
    else if chain.length < 3 then curlAux user expert top rest
    else do
      let u1 ← idxE user.rows (chain.getD 1 0)
      let u2 ← idxE user.rows (chain.getD 2 0)
      let u3 ← idxE user.rows (chain.getD 3 0)
      let e1 ← idxE expert.rows (chain.getD 1 0)
      let e2 ← idxE expert.rows (chain.getD 2 0)
      let e3 ← idxE expert.rows (chain.getD 3 0)
      let angle_user := compute_angle_at_joint u1 u2 u3
      let angle_expert := compute_angle_at_joint e1 e2 e3
      let delta := degreesR (angle_user - angle_expert)
      let t ← curlAux user expert top rest
      if |delta| < ANGLE_THRESHOLD then pure t
      else
        pure (template_to_cue
          ((finger_names.getD fidx "") ++ (if delta < 0 then "_curl" else "_extend"))
          0.65 chain none :: t)

/-- `_curl_cues` entry point. -/
def curl_cues (user expert : NArr) (top : List Nat) : Except Unit (List Cue) :=
  curlAux user expert top FINGER_CHAINS.enum

/-- `get_positive_cue`. -/
def get_positive_cue (score : ℝ) : Option Cue :=
  if 95 ≤ score then
    some ⟨"Perfect! Keep it up!", .GLOBAL, 0.5, [], none, none⟩
  else if 85 ≤ score then
    some ⟨"Great job! Almost perfect!", .GLOBAL, 0.3, [], none, none⟩
  else if 75 ≤ score then
    some ⟨"Almost there! Small adjustment needed", .GLOBAL, 0.2, [], none, none⟩
  else none

/-- `deduplicate_cues` inner loop, carrying the `seen` set of texts. -/
def dedupAux (seen : List String) : List Cue → List Cue
  | [] => []
  | c :: cs => if c.text ∈ seen then dedupAux seen cs
               else c :: dedupAux (c.text :: seen) cs

/-- `deduplicate_cues`: drop cues whose exact text was already seen. -/
def deduplicate_cues (cues : List Cue) : List Cue := dedupAux [] cues

/-- The cue list assembled by `generate_cues` before deduplication,
sorting and truncation, in detector order: position, rotation, spread,
curl, timing, positive reinforcement. -/
def rawCues (user expert : NArr) (per_joint_errors : List (Nat × ℝ))
    (top_error_joints : List Nat) (timing_offset : ℝ) : Except Unit (List Cue) := do
  let posC : List Cue :=
    match detect_position_error user expert with
    | some (key, _) => [template_to_cue key 0.9 (List.range user.rows.length) none]
    | none => []
  let rotO ← detect_rotation_error user expert
  let rotC : List Cue :=
    match rotO with
    | some (key, dir) => [template_to_cue key 0.8 [0] (some dir)]
    | none => []
  let sprO ← detect_spread_error user expert
  let sprC : List Cue :=
    match sprO with
    | some key => [template_to_cue key 0.7 [4, 8, 12, 16, 20] none]
    | none => []
  let curlC ← curl_cues user expert top_error_joints
  let timC : List Cue :=
    if (0.2 : ℝ) < timing_offset then [template_to_cue "going_too_fast" 0.6 [] none]
    else if timing_offset < -0.2 then [template_to_cue "going_too_slow" 0.6 [] none]
    else []
  let avg_error : ℝ :=
    if per_joint_errors.isEmpty then 0 else meanL (per_joint_errors.map Prod.snd)
  let posRe : List Cue :=
    match get_positive_cue (error_to_score 500 avg_error) with
    | some c => [c]
    | none => []
  pure (posC ++ rotC ++ sprC ++ curlC ++ timC ++ posRe)

/-- `generate_cues`: deduplicate, sort by priority descending (stable),
truncate to `max_cues`. -/
def generate_cues (user expert : NArr) (per_joint_errors : List (Nat × ℝ))
    (top_error_joints : List Nat) (timing_offset : ℝ) (max_cues : Nat) :
    Except Unit (List Cue) :=
  (rawCues user expert per_joint_errors top_error_joints timing_offset).map
    (fun cues => (sortDescBy Cue.priority (deduplicate_cues cues)).take max_cues)

/-! ## Scoring engine (`backend/services/scoring_engine.py`) -/

/-- `ScoringMode` enum. -/
inductive ScoringMode
  | POSITIONAL
  | ANGULAR
  | COMBINED

/-- A `ScoringEngine` instance: constructor parameters plus the one piece
of mutable state, `ema_score` (`None` on a fresh or reset engine). -/
structure ScoringEngine where
  mode : ScoringMode
  position_weight : ℝ
  angle_weight : ℝ
  ema_alpha : ℝ
  k_scaling : ℝ
  ema_score : Option ℝ

/-- `ScoringEngine()` with the constructor defaults. -/
def defaultEngine : ScoringEngine :=
  { mode := .COMBINED, position_weight := 0.6, angle_weight := 0.4,
    ema_alpha := 0.3, k_scaling := 500, ema_score := none }

/-- The `ScoringResult` dataclass.  `per_joint_errors` is a Python dict
whose insertion order (ascending joint index) is part of its semantics, so
it is modelled as an association list. -/
structure ScoringResult where
  overall_score : ℝ
  raw_score : ℝ
  per_joint_errors : List (Nat × ℝ)
  top_error_joints : List Nat
  positional_score : ℝ
  angular_score : ℝ
  timing_penalty : ℝ

/-- The two kinds of exception `score_frame` can raise: the explicit
`ValueError` on shape mismatch, and `IndexError` from numpy indexing. -/
inductive ScoreError
  | shapeMismatch
  | indexError

/-- `HAND_JOINT_WEIGHTS`. -/
def HAND_JOINT_WEIGHTS : List (Nat × ℝ) :=
  [(0, 1.0), (4, 1.5), (8, 1.5), (12, 1.5), (16, 1.2), (20, 1.2)]

/-- `weights.get(idx, 1.0) if weights else 1.0`. -/
def weightOf (weights : Option (List (Nat × ℝ))) (idx : Nat) : ℝ :=
  match weights with
  | none => 1
  | some w => (w.lookup idx).getD 1

/-- The loop of `compute_positional_error`: records `(idx, distance)` for
every index not skipped by the mask, in loop order.  `mask[idx]` and the
row accesses raise when out of range. -/
def posEntries (user expert : List (List ℝ)) (mask : Option (List Bool)) :
    List Nat → Except Unit (List (Nat × ℝ))
  | [] => .ok []
  | i :: is =>
    match mask with
    | some m =>
      match idxE m i with
      | .error e => .error e
      | .ok b =>
        if b then do
          let u ← idxE user i
          let e ← idxE expert i
          let t ← posEntries user expert mask is
          pure ((i, euclidean_distance u e) :: t)
        else posEntries user expert mask is
    | none => do
        let u ← idxE user i
        let e ← idxE expert i
        let t ← posEntries user expert mask is
        pure ((i, euclidean_distance u e) :: t)

/-- `compute_positional_error`: weighted mean distance plus the per-joint
error dict (with `0.0` total when every joint is masked out). -/
def compute_positional_error (user expert : List (List ℝ))
    (weights : Option (List (Nat × ℝ))) (mask : Option (List Bool)) :
    Except Unit (ℝ × List (Nat × ℝ)) := do
  let entries ← posEntries user expert mask (List.range user.length)
  let total_weight := (entries.map (fun e => weightOf weights e.1)).sum
  let weighted_error := (entries.map (fun e => weightOf weights e.1 * e.2)).sum
  if total_weight = 0 then pure (0, entries)
  else pure (weighted_error / total_weight, entries)

/-- The interior-triplet angles of one chain (`for i in range(1, len-1)`);
`k` ranges over `range(len(chain) - 2)` with triplet
`(chain[k], chain[k+1], chain[k+2])`. -/
def tripletAngles (pts : List (List ℝ)) (chain : List Nat) :
    List Nat → Except Unit (List ℝ)
  | [] => .ok []
  | k :: ks => do
    let a ← idxE pts (chain.getD k 0)
    let b ← idxE pts (chain.getD (k + 1) 0)
    let c ← idxE pts (chain.getD (k + 2) 0)
    let t ← tripletAngles pts chain ks
    pure (compute_angle_at_joint a b c :: t)

/-- All interior angles of a chain. -/
def angleTriplets (pts : List (List ℝ)) (chain : List Nat) : Except Unit (List ℝ) :=
  tripletAngles pts chain (List.range (chain.length - 2))

/-- Per-chain mean absolute angle differences (chains with fewer than three
joints are skipped). -/
def chainErrs (user expert : List (List ℝ)) : List (List Nat) → Except Unit (List ℝ)
  | [] => .ok []
  | ch :: rest => do
    let au ← angleTriplets user ch
    let ae ← angleTriplets expert ch
    let t ← chainErrs user expert rest
    if au.isEmpty then pure t
    else pure (meanL (List.zipWith (fun a b => |a - b|) au ae) :: t)

/-- `compute_angular_error`: mean of the chain errors, normalised by 180
degrees (`0.0` when no chain produced angles).  The chain-errors dict (the
second return value in Python) is discarded by `score_frame` and omitted. -/
def compute_angular_error (user expert : List (List ℝ)) (chains : List (List Nat)) :
    Except Unit ℝ := do
  let errs ← chainErrs user expert chains
  if errs.isEmpty then pure 0 else pure (meanL errs / 180)

/-- `smooth_score`: seeds the EMA with the raw value on first use,
otherwise `ema = α·raw + (1−α)·ema_prev`; returns the smoothed value and
the updated engine state. -/
def smooth_score (eng : ScoringEngine) (raw : ℝ) : ℝ × ScoringEngine :=
  match eng.ema_score with
  | none => (raw, { eng with ema_score := some raw })
  | some prev =>
    let v := eng.ema_alpha * raw + (1 - eng.ema_alpha) * prev
    (v, { eng with ema_score := some v })

/-- `get_top_error_joints`: indices of the `n` largest errors under
Python's stable descending sort by value. -/
def get_top_error_joints (per_joint_errors : List (Nat × ℝ)) (n : Nat) : List Nat :=
  ((sortDescBy Prod.snd per_joint_errors).take n).map Prod.fst

/-- `score_frame`.  Returns the result (or the exception raised) together
with the engine state after the call; all exception paths leave the state
untouched, mirroring Python's early `raise`. -/
def score_frame (eng : ScoringEngine) (user expert : NArr) (mask : Option (List Bool)) :
    Except ScoreError ScoringResult × ScoringEngine :=
  if user.shape ≠ expert.shape then (.error .shapeMismatch, eng)
  else
    match compute_positional_error user.rows expert.rows
        (if user.rows.length = 21 then some HAND_JOINT_WEIGHTS else none) mask with
    | .error _ => (.error .indexError, eng)
    | .ok pe =>
      match compute_angular_error user.rows expert.rows FINGER_CHAINS with
      | .error _ => (.error .indexError, eng)
      | .ok angular_error =>
        let positional_score := error_to_score eng.k_scaling pe.1
        let angular_score := error_to_score eng.k_scaling angular_error
        let raw_score :=
          match eng.mode with
          | .POSITIONAL => positional_score
          | .ANGULAR => angular_score
          | .COMBINED =>
            eng.position_weight * positional_score + eng.angle_weight * angular_score
        let sm := smooth_score eng raw_score
        (.ok { overall_score := sm.1, raw_score := raw_score,
               per_joint_errors := pe.2,
               top_error_joints := get_top_error_joints pe.2 3,
               positional_score := positional_score,
               angular_score := angular_score, timing_penalty := 0 }, sm.2)

/-! ## Normalizer (`backend/services/normalizer.py`)

`normalize_hand` reads only `keypoints[:, :2]`, so it is embedded directly
on the coordinate pairs (`List Point2`). -/

/-- The transform-params dict `{translation, scale, rotation}`. -/
structure NormParams where
  translation : Point2
  scale : ℝ
  rotation : ℝ

/-- `compute_reference_length_hand`: wrist→middle-fingertip distance. -/
def compute_reference_length_hand (pts : List Point2) : ℝ :=
  dist2 (pts.getD 12 (0, 0)) (pts.getD 0 (0, 0))

/-- `normalize_hand`: translate the wrist to the origin, scale the
wrist→middle-tip length to `target_scale`, rotate the wrist→middle-MCP
vector onto the +x axis. -/
def normalize_hand (pts : List Point2) (target_scale : ℝ) : List Point2 × NormParams :=
  let wrist := pts.getD 0 (0, 0)
  let translation := pneg wrist
  let translated := pts.map (fun p => padd p translation)
  let ref_len := compute_reference_length_hand pts
  let scale := if 1e-6 < ref_len then target_scale / ref_len else 1
  let scaled := translated.map (psmul scale)
  let middle_mcp := pts.getD 9 (0, 0)
  let vec := psmul scale (padd middle_mcp translation)
  let rotation := if 1e-6 < normP vec then -(atan2 vec.2 vec.1) else 0
  let normalized := scaled.map (rot2 rotation)
  (normalized, { translation := translation, scale := scale, rotation := rotation })

/-- `apply_transform`: `pts * scale`, then `@ R(rotation).T`, then
`- translation` (the translation is subtracted last, unscaled and
unrotated). -/
def apply_transform (pts : List Point2) (tp : NormParams) : List Point2 :=
  pts.map (fun p => psub (rot2 tp.rotation (psmul tp.scale p)) tp.translation)

/-- Row-vector product `p @ [[c, s], [-s, c]].T` — rotation by `-θ`,
as built inline by `invert_transform`. -/
def rot2Inv (θ : ℝ) (p : Point2) : Point2 :=
  (Real.cos θ * p.1 + Real.sin θ * p.2, -(Real.sin θ) * p.1 + Real.cos θ * p.2)

/-- Componentwise division of a point by a scalar. -/
def pdiv (p : Point2) (d : ℝ) : Point2 := (p.1 / d, p.2 / d)

/-- `invert_transform`: inverse rotation, division by `scale + 1e-8`,
subtraction of the stored translation. -/
def invert_transform (pts : List Point2) (tp : NormParams) : List Point2 :=
  pts.map (fun p => psub (pdiv (rot2Inv tp.rotation p) (tp.scale + 1e-8)) tp.translation)

/-! ## Alignment engine (`backend/services/alignment_engine.py`) -/

/-- The `AlignmentResult` dataclass. -/
structure AlignmentResult where
  aligned_expert : List Point2
  transform_matrix : List (List ℝ)
  scale_factor : ℝ
  translation : Point2
  rotation_angle : ℝ
  alignment_quality : ℝ

/-- `np.eye(3)`. -/
def eye3 : List (List ℝ) := [[1, 0, 0], [0, 1, 0], [0, 0, 1]]

/-- `_split_coords_conf`: x,y coordinates plus the confidence column
(column 3 when at least 4 columns, else column 2 when at least 3,
else `None`). -/
def split_coords_conf (a : NArr) : List Point2 × Option (List ℝ) :=
  (a.pts,
    if 4 ≤ a.ncols then some (a.rows.map (fun r => r.getD 3 0))
    else if 3 ≤ a.ncols then some (a.rows.map (fun r => r.getD 2 0))
    else none)

/-- `_confidence_mask`: all-true when there is no confidence column,
otherwise `conf[anchor_indices] >= threshold` (raising when an anchor
index is out of range of the confidence column). -/
def confidence_mask (conf : Option (List ℝ)) (anchor_indices : List Nat)
    (threshold : ℝ) : Except Unit (List Bool) :=
  match conf with
  | none => .ok (List.replicate anchor_indices.length true)
  | some c =>
    if anchor_indices.all (fun i => i < c.length) then
      .ok (anchor_indices.map (fun i => decide (threshold ≤ c.getD i 0)))
    else .error ()

/-- `np.mean(points, axis=0)` of a point list. -/
def centroidP (l : List Point2) : Point2 :=
  (meanL (l.map Prod.fst), meanL (l.map Prod.snd))

/-- numpy boolean-mask indexing `points[valid_mask]`. -/
def maskFilter (l : List Point2) (mask : List Bool) : List Point2 :=
  ((l.zip mask).filter (fun pb => pb.2)).map Prod.fst

/-- `compute_anchor_transform`: scale from the ratio of mean distances to
the centroid, rotation from the first two valid anchors, translation
moving the scaled-and-rotated expert centroid onto the user centroid. -/
def compute_anchor_transform (expert_anchors user_anchors : List Point2)
    (valid_mask : List Bool) : ℝ × Point2 × ℝ :=
  let exp_valid := maskFilter expert_anchors valid_mask
  let usr_valid := maskFilter user_anchors valid_mask
  let exp_center := centroidP exp_valid
  let usr_center := centroidP usr_valid
  let exp_dists := exp_valid.map (fun p => dist2 p exp_center)
  let usr_dists := usr_valid.map (fun p => dist2 p usr_center)
  let exp_scale := if exp_dists.length ≠ 0 then meanL exp_dists else 1
  let usr_scale := if usr_dists.length ≠ 0 then meanL usr_dists else 1
  let scale := if 1e-6 < exp_scale then usr_scale / exp_scale else 1
  let rotation :=
    if 2 ≤ exp_valid.length then
      let v_exp := psub (exp_valid.getD 1 (0, 0)) (exp_valid.getD 0 (0, 0))
      let v_usr := psub (usr_valid.getD 1 (0, 0)) (usr_valid.getD 0 (0, 0))
      if 1e-6 < normP v_exp ∧ 1e-6 < normP v_usr then
        atan2 v_usr.2 v_usr.1 - atan2 v_exp.2 v_exp.1
      else 0
    else 0
  let exp_center_tx := rot2 rotation (psmul scale exp_center)
  let translation := psub usr_center exp_center_tx
  (scale, translation, rotation)

/-- `_build_matrix`: the 3×3 similarity-transform matrix. -/
def build_matrix (scale : ℝ) (translation : Point2) (rotation : ℝ) : List (List ℝ) :=
  [[scale * Real.cos rotation, -(scale * Real.sin rotation), translation.1],
   [scale * Real.sin rotation, scale * Real.cos rotation, translation.2],
   [0, 0, 1]]

/-- `affine_transform` from `math_helpers.py`: apply a 3×3 affine matrix
to 2-D points (homogeneous coordinates, first two output columns). -/
def affine_transform (points : List Point2) (m : List (List ℝ)) : List Point2 :=
  points.map (fun p =>
    ((m.getD 0 []).getD 0 0 * p.1 + (m.getD 0 []).getD 1 0 * p.2 + (m.getD 0 []).getD 2 0,
     (m.getD 1 []).getD 0 0 * p.1 + (m.getD 1 []).getD 1 0 * p.2 + (m.getD 1 []).getD 2 0))

/-- `apply_similarity_transform`. -/
def apply_similarity_transform (points : List Point2) (scale : ℝ)
    (translation : Point2) (rotation : ℝ) : List Point2 :=
  affine_transform points (build_matrix scale translation rotation)

/-- numpy fancy indexing `points[anchor_indices]`: raises when any index
is out of range. -/
def fancyIdx (l : List Point2) (idxs : List Nat) : Except Unit (List Point2) :=
  if idxs.all (fun i => i < l.length) then .ok (idxs.map (fun i => l.getD i (0, 0)))
  else .error ()

/-- `align_hands`: with fewer than 2 valid anchors, the degraded identity
result; otherwise the anchor similarity transform applied to the whole
expert skeleton, with `quality = valid_mask.mean()`. -/
def align_hands (expert_hand user_hand : NArr) (anchor_indices : List Nat)
    (confidence_threshold : ℝ) : Except Unit AlignmentResult := do
  let uc := split_coords_conf user_hand
  let ec := split_coords_conf expert_hand
  let valid_mask ← confidence_mask uc.2 anchor_indices confidence_threshold
  if valid_mask.countP id < 2 then
    pure { aligned_expert := ec.1, transform_matrix := eye3, scale_factor := 1,
           translation := (0, 0), rotation_angle := 0, alignment_quality := 0 }
  else do
    let expA ← fancyIdx ec.1 anchor_indices
    let usrA ← fancyIdx uc.1 anchor_indices
    let str := compute_anchor_transform expA usrA valid_mask
    pure { aligned_expert := apply_similarity_transform ec.1 str.1 str.2.1 str.2.2,
           transform_matrix := build_matrix str.1 str.2.1 str.2.2,
           scale_factor := str.1, translation := str.2.1, rotation_angle := str.2.2,
           alignment_quality := (valid_mask.countP id : ℝ) / valid_mask.length }

/-! ## Spec-side definitions

These two definitions follow the specification's words, for comparison
against what `compute_anchor_transform` actually computes. -/

/-- The spec's words: "ratio of user-to-expert RMS distance of valid
anchors to their centroid" — root-mean-square distance of a point set to
its centroid. -/
def specRMSDistToCentroid (l : List Point2) : ℝ :=
  Real.sqrt (meanL (l.map (fun p => dist2 p (centroidP l) ^ 2)))

/-- Mean distance of a point set to its centroid (what the code's
`np.mean(np.linalg.norm(...))` computes). -/
def meanDistToCentroid (l : List Point2) : ℝ :=
  meanL (l.map (fun p => dist2 p (centroidP l)))

/-! ## Concrete inputs used by witnesses and counterexamples -/

/-- A `(21, 2)` all-zero hand array. -/
def zeros21x2 : NArr :=
  ⟨List.replicate 21 [0, 0], 2, by intro r hr; rw [List.eq_of_mem_replicate hr]; rfl⟩

/-- A `(21, 3)` all-zero hand array (confidence column all 0). -/
def zeros21x3 : NArr :=
  ⟨List.replicate 21 [0, 0, 0], 3, by intro r hr; rw [List.eq_of_mem_replicate hr]; rfl⟩

/-- A `(21, 3)` hand array whose rows are all `[0, 0, 1]`: identical x,y
to `zeros21x3` but third column larger by 1. -/
def ones3rd : NArr :=
  ⟨List.replicate 21 [0, 0, 1], 3, by intro r hr; rw [List.eq_of_mem_replicate hr]; rfl⟩

/-- Hand skeleton with wrist `(1,0)` and middle MCP/fingertip `(2,0)`
(reference length 1, rotation 0), all other joints `(1,0)`. -/
def bpts : List Point2 :=
  [(1, 0), (1, 0), (1, 0), (1, 0), (1, 0), (1, 0), (1, 0), (1, 0), (1, 0),
   (2, 0), (1, 0), (1, 0), (2, 0), (1, 0), (1, 0), (1, 0), (1, 0), (1, 0),
   (1, 0), (1, 0), (1, 0)]

/-- Hand skeleton with wrist `(0,0)`, middle MCP/fingertip `(1,0)`
(reference length 1, rotation 0) and one far joint `(100000, 0)` at
index 3, all other joints `(0,0)`. -/
def cpts : List Point2 :=
  [(0, 0), (0, 0), (0, 0), (100000, 0), (0, 0), (0, 0), (0, 0), (0, 0), (0, 0),
   (1, 0), (0, 0), (0, 0), (1, 0), (0, 0), (0, 0), (0, 0), (0, 0), (0, 0),
   (0, 0), (0, 0), (0, 0)]

/-- Expert anchors whose distances to their centroid are `1, 7, 1, 7`
(mean 4, RMS 5). -/
def c2exp : List Point2 := [(-1, 0), (-7, 0), (1, 0), (7, 0)]

/-- User anchors whose distances to their centroid are all `1`
(mean 1, RMS 1). -/
def c2usr : List Point2 := [(-1, 0), (-1, 0), (1, 0), (1, 0)]

/-- An all-valid anchor mask. -/
def c2mask : List Bool := [true, true, true, true]

/-- The scoring result of a frame scored against itself (all errors 0,
both component scores 100, EMA seeded at 100). -/
def r0 : ScoringResult :=
  { overall_score := 100, raw_score := 100,
    per_joint_errors := (List.range 21).map (fun i => (i, 0)),
    top_error_joints := [0, 1, 2],
    positional_score := 100, angular_score := 100, timing_penalty := 0 }

/-- Like `r0` but for an all-`False` confidence mask: every joint is
skipped, so the per-joint dict and the top-error list are empty. -/
def r0e : ScoringResult :=
  { overall_score := 100, raw_score := 100, per_joint_errors := [],
    top_error_joints := [], positional_score := 100, angular_score := 100,
    timing_penalty := 0 }

/-- The "Perfect!" positive-reinforcement cue. -/
def perfectCue : Cue :=
  { text := "Perfect! Keep it up!", category := .GLOBAL, priority := 0.5,
    affected_joints := [], icon := none, direction := none }

/-! ## General lemmas -/

theorem idxE_eq_ok {α : Type} (l : List α) (i : Nat) (h : i < l.length) :
    idxE l i = .ok (l.get ⟨i, h⟩) := by
  simp [idxE, h]


theorem insertDescBy_perm (key : α → ℝ) (c : α) (l : List α) :
    (insertDescBy key c l).Perm (c :: l) := by
  induction l with
  | nil => simp [insertDescBy]
  | cons d ds ih =>
    by_cases h : key d ≤ key c
    · simp [insertDescBy, h]
    · simp only [insertDescBy, if_neg h]
      exact (ih.cons d).trans (List.Perm.swap c d ds)

theorem sortDescBy_perm (key : α → ℝ) (l : List α) : (sortDescBy key l).Perm l := by
  induction l with
  | nil => simp [sortDescBy]
  | cons x xs ih =>
    exact (insertDescBy_perm key x (sortDescBy key xs)).trans (ih.cons x)

theorem mem_insertDescBy {key : α → ℝ} {c : α} {l : List α} {a : α} :
    a ∈ insertDescBy key c l ↔ a = c ∨ a ∈ l := by
  constructor
  · intro h
    have := (insertDescBy_perm key c l).mem_iff.mp h
    simpa using this
  · intro h
    apply (insertDescBy_perm key c l).mem_iff.mpr
    simpa using h

theorem insertDescBy_sorted (key : α → ℝ) (c : α) (l : List α)
    (hl : l.Pairwise (fun a b => key b ≤ key a)) :
    (insertDescBy key c l).Pairwise (fun a b => key b ≤ key a) := by
  induction l with
  | nil => simp [insertDescBy]
  | cons d ds ih =>
    have hd : ∀ b ∈ ds, key b ≤ key d := fun b hb => List.rel_of_pairwise_cons hl hb
    have hds : ds.Pairwise (fun a b => key b ≤ key a) := hl.of_cons
    by_cases h : key d ≤ key c
    · simp only [insertDescBy, if_pos h]
      refine List.Pairwise.cons ?_ hl
      intro b hb
      rcases List.mem_cons.mp hb with rfl | hb
      · exact h
      · exact le_trans (hd b hb) h
    · simp only [insertDescBy, if_neg h]
      refine List.Pairwise.cons ?_ (ih hds)
      intro b hb
      rcases mem_insertDescBy.mp hb with rfl | hb
      · exact le_of_lt (not_le.mp h)
      · exact hd b hb

theorem sortDescBy_sorted (key : α → ℝ) (l : List α) :
    (sortDescBy key l).Pairwise (fun a b => key b ≤ key a) := by
  induction l with
  | nil => simp [sortDescBy]
  | cons x xs ih => exact insertDescBy_sorted key x (sortDescBy key xs) ih

/-- Stability of the insertion step, expressed through filtering at a fixed
key value: elements placed before `c` all have keys strictly greater than
`key c`, so the filtered sequence at any key value keeps its order. -/
theorem insertDescBy_filter_key (key : α → ℝ) (c : α) (l : List α) (p : ℝ) :
    (insertDescBy key c l).filter (fun a => decide (key a = p)) =
      (c :: l).filter (fun a => decide (key a = p)) := by
  induction l with
  | nil => simp [insertDescBy]
  | cons d ds ih =>
    by_cases h : key d ≤ key c
    · simp [insertDescBy, h]
    · have hne : key d ≠ key c := fun hEq => h (le_of_eq hEq)
      simp only [insertDescBy, if_neg h]
      by_cases hc : key c = p
      · have hdp : ¬ key d = p := fun hd => hne (hd.trans hc.symm)
        simp only [List.filter_cons, hc, hdp] at *
        simpa [hdp, hc] using ih
      · by_cases hd : key d = p
        · simp only [List.filter_cons, hd, hc] at *
          simpa [hd, hc] using ih
        · simp only [List.filter_cons, hd, hc] at *
          simpa [hd, hc] using ih

/-- Stability of the full sort: filtering at any fixed key value commutes
with sorting, i.e. equal-key elements keep their original order. -/
theorem sortDescBy_filter_key (key : α → ℝ) (l : List α) (p : ℝ) :
    (sortDescBy key l).filter (fun a => decide (key a = p)) =
      l.filter (fun a => decide (key a = p)) := by
  induction l with
  | nil => simp [sortDescBy]
  | cons x xs ih =>
    have step := insertDescBy_filter_key key x (sortDescBy key xs) p
    simp only [sortDescBy, List.foldr_cons] at *
    rw [step, List.filter_cons, List.filter_cons, ih]

/-- A stable descending sort of a strictly-`fst`-increasing pair list is
pairwise lexicographically ordered: strictly larger `snd` first, ties
ordered by ascending `fst`. -/
theorem insertDescBy_pairwise_lex (c : Nat × ℝ) (s : List (Nat × ℝ))
    (hs : s.Pairwise (fun a b => b.2 < a.2 ∨ (a.2 = b.2 ∧ a.1 < b.1)))
    (hc : ∀ y ∈ s, c.1 < y.1) :
    (insertDescBy Prod.snd c s).Pairwise
      (fun a b => b.2 < a.2 ∨ (a.2 = b.2 ∧ a.1 < b.1)) := by
  induction s with
  | nil => simp [insertDescBy]
  | cons d ds ih =>
    have hd : ∀ y ∈ ds, y.2 < d.2 ∨ (d.2 = y.2 ∧ d.1 < y.1) :=
      fun y hy => List.rel_of_pairwise_cons hs hy
    have hds := hs.of_cons
    by_cases h : d.2 ≤ c.2
    · simp only [insertDescBy, if_pos h]
      refine List.Pairwise.cons ?_ hs
      intro y hy
      have hy2 : y.2 ≤ c.2 := by
        rcases List.mem_cons.mp hy with rfl | hy2
        · exact h
        · rcases hd y hy2 with h1 | h1
          · exact le_trans (le_of_lt h1) h
          · exact le_trans (le_of_eq h1.1.symm) h
      rcases lt_or_eq_of_le hy2 with h2 | h2
      · exact Or.inl h2
      · exact Or.inr ⟨h2.symm, hc y hy⟩
    · simp only [insertDescBy, if_neg h]
      refine List.Pairwise.cons ?_
        (ih hds (fun y hy => hc y (List.mem_cons_of_mem d hy)))
      intro y hy
      rcases mem_insertDescBy.mp hy with rfl | hy2
      · exact Or.inl (not_le.mp h)
      · exact hd y hy2

theorem sortDescBy_cons (key : α → ℝ) (x : α) (xs : List α) :
    sortDescBy key (x :: xs) = insertDescBy key x (sortDescBy key xs) := rfl

theorem sortDescBy_pairwise_lex (l : List (Nat × ℝ))
    (hl : l.Pairwise (fun a b => a.1 < b.1)) :
    (sortDescBy Prod.snd l).Pairwise
      (fun a b => b.2 < a.2 ∨ (a.2 = b.2 ∧ a.1 < b.1)) := by
  induction l with
  | nil => simp [sortDescBy]
  | cons x xs ih =>
    have hx : ∀ y ∈ xs, x.1 < y.1 := fun y hy => List.rel_of_pairwise_cons hl hy
    rw [sortDescBy_cons]
    refine insertDescBy_pairwise_lex x (sortDescBy Prod.snd xs) (ih hl.of_cons) ?_
    intro y hy
    exact hx y ((sortDescBy_perm Prod.snd xs).mem_iff.mp hy)

/-- When every key is equal, the stable sort is the identity. -/
theorem sortDescBy_const_key (key : α → ℝ) (l : List α)
    (h : ∀ a ∈ l, ∀ b ∈ l, key a = key b) : sortDescBy key l = l := by
  induction l with
  | nil => simp [sortDescBy]
  | cons x xs ih =>
    rw [sortDescBy_cons, ih (fun a ha b hb =>
      h a (List.mem_cons_of_mem x ha) b (List.mem_cons_of_mem x hb))]
    cases xs with
    | nil => simp [insertDescBy]
    | cons d ds =>
      have : key d ≤ key x :=
        le_of_eq (h d (by simp) x (by simp))
      simp [insertDescBy, this]

/-- Every element surviving `dedupAux` has a text outside `seen`. -/
theorem mem_dedupAux_not_seen (cs : List Cue) :
    ∀ (seen : List String) (c : Cue), c ∈ dedupAux seen cs → c.text ∉ seen := by
  induction cs with
  | nil => intro seen c h; simp [dedupAux] at h
  | cons d ds ih =>
    intro seen c h
    by_cases hd : d.text ∈ seen
    · exact ih seen c (by simpa [dedupAux, hd] using h)
    · simp only [dedupAux, if_neg hd] at h
      rcases List.mem_cons.mp h with rfl | h2
      · exact hd
      · intro hc
        exact ih (d.text :: seen) c h2 (List.mem_cons_of_mem _ hc)

/-- `deduplicate_cues` never keeps two cues with the same text. -/
theorem dedupAux_pairwise_text (cs : List Cue) :
    ∀ seen : List String,
      (dedupAux seen cs).Pairwise (fun a b => a.text ≠ b.text) := by
  induction cs with
  | nil => intro seen; simp [dedupAux]
  | cons d ds ih =>
    intro seen
    by_cases hd : d.text ∈ seen
    · simpa [dedupAux, hd] using ih seen
    · simp only [dedupAux, if_neg hd]
      refine List.Pairwise.cons ?_ (ih (d.text :: seen))
      intro b hb hbd
      exact mem_dedupAux_not_seen ds (d.text :: seen) b hb (by simp [hbd])

theorem deduplicate_cues_pairwise_text (cs : List Cue) :
    (deduplicate_cues cs).Pairwise (fun a b => a.text ≠ b.text) :=
  dedupAux_pairwise_text cs []

/-! ### Small computation helpers -/

theorem getD_map_lt {β : Type} (f : Point2 → β) (l : List Point2) (i : Nat)
    (d2 : β) (h : i < l.length) :
    (l.map f).getD i d2 = f (l.getD i (0, 0)) := by
  rw [List.getD_eq_getElem?_getD, List.getElem?_map,
    List.getD_eq_getElem?_getD, List.getElem?_eq_getElem h]
  simp

/-- Distance of two points on the x-axis. -/
theorem dist2_x (a b : ℝ) : dist2 (a, 0) (b, 0) = |a - b| := by
  simp [dist2, psub, normP, Real.sqrt_sq_eq_abs]

theorem normP_x (a : ℝ) : normP (a, 0) = |a| := by
  simp [normP, Real.sqrt_sq_eq_abs]

theorem dotL_vecSub_self (p : List ℝ) :
    dotL (vecSub p p) (vecSub p p) = 0 := by
  induction p with
  | nil => simp [vecSub, dotL]
  | cons a l ih =>
    simp only [vecSub, dotL, List.zipWith_cons_cons, List.sum_cons] at *
    rw [ih]
    ring

theorem euclidean_distance_self (p : List ℝ) : euclidean_distance p p = 0 := by
  simp [euclidean_distance, normL, dotL_vecSub_self]

theorem zipWith_abs_sub_self (l : List ℝ) :
    List.zipWith (fun a b => |a - b|) l l = l.map (fun _ => 0) := by
  induction l with
  | nil => simp
  | cons a t ih => simp [ih]

theorem meanL_zeroes (l : List ℝ) (h : ∀ x ∈ l, x = 0) : meanL l = 0 := by
  rw [meanL, List.sum_eq_zero h, zero_div]

/-! ### Scoring-engine lemmas -/

theorem exBind_ok {ε β γ : Type} (a : β) (f : β → Except ε γ) :
    (Except.ok a : Except ε β) >>= f = f a := rfl

theorem exBind_error {ε β γ : Type} (e : ε) (f : β → Except ε γ) :
    (Except.error e : Except ε β) >>= f = .error e := rfl

theorem exPure_ok {ε β : Type} (a : β) : (pure a : Except ε β) = .ok a := rfl

theorem posEntries_self_none (rows : List (List ℝ)) :
    ∀ idxs : List Nat, (∀ i ∈ idxs, i < rows.length) →
      posEntries rows rows none idxs = .ok (idxs.map (fun i => (i, (0 : ℝ)))) := by
  intro idxs
  induction idxs with
  | nil => intro _; simp [posEntries]
  | cons i is ih =>
    intro h
    have hi : i < rows.length := h i (List.mem_cons_self i is)
    have ht := ih (fun j hj => h j (List.mem_cons_of_mem i hj))
    simp only [posEntries, idxE, dif_pos hi, exBind_ok, ht, List.map_cons]
    simp only [euclidean_distance_self]
    rfl

theorem posEntries_all_true (user expert : List (List ℝ)) (n : Nat) :
    ∀ idxs : List Nat, (∀ i ∈ idxs, i < n) →
      posEntries user expert (some (List.replicate n true)) idxs =
        posEntries user expert none idxs := by
  intro idxs
  induction idxs with
  | nil => intro _; simp [posEntries]
  | cons i is ih =>
    intro h
    have hi : i < n := h i (List.mem_cons_self i is)
    have hi2 : i < (List.replicate n true).length := by simpa using hi
    have ht := ih (fun j hj => h j (List.mem_cons_of_mem i hj))
    simp only [posEntries, idxE, dif_pos hi2, List.get_replicate, if_pos, ht]

theorem tripletAngles_ok (rows : List (List ℝ)) (ch : List Nat)
    (hch : ∀ j ∈ ch, j < rows.length) :
    ∀ ks : List Nat, (∀ k ∈ ks, k + 2 < ch.length) →
      ∃ l : List ℝ, tripletAngles rows ch ks = .ok l ∧ l.length = ks.length := by
  intro ks
  induction ks with
  | nil => intro _; exact ⟨[], rfl, rfl⟩
  | cons k ks ih =>
    intro h
    have hk : k + 2 < ch.length := h k (List.mem_cons_self k ks)
    have hmem : ∀ m, m < ch.length → ch.getD m 0 < rows.length := by
      intro m hm
      rw [List.getD_eq_getElem ch 0 hm]
      exact hch _ (List.getElem_mem hm)
    have h0 : ch.getD k 0 < rows.length := hmem k (by omega)
    have h1 : ch.getD (k + 1) 0 < rows.length := hmem (k + 1) (by omega)
    have h2 : ch.getD (k + 2) 0 < rows.length := hmem (k + 2) hk
    obtain ⟨l, hl, hlen⟩ := ih (fun j hj => h j (List.mem_cons_of_mem k hj))
    have heq : tripletAngles rows ch (k :: ks) =
        .ok (compute_angle_at_joint (rows.get ⟨ch.getD k 0, h0⟩)
          (rows.get ⟨ch.getD (k + 1) 0, h1⟩)
          (rows.get ⟨ch.getD (k + 2) 0, h2⟩) :: l) := by
      simp only [tripletAngles, idxE, dif_pos h0, dif_pos h1, dif_pos h2,
        exBind_ok, hl]
      rfl
    exact ⟨_, heq, by simp [hlen]⟩

theorem chainErrs_self_zero (rows : List (List ℝ)) :
    ∀ chains : List (List Nat), (∀ ch ∈ chains, ∀ j ∈ ch, j < rows.length) →
      ∃ zs, chainErrs rows rows chains = .ok zs ∧ ∀ z ∈ zs, z = 0 := by
  intro chains
  induction chains with
  | nil => intro _; exact ⟨[], rfl, by simp⟩
  | cons ch rest ih =>
    intro h
    obtain ⟨l, hl, _⟩ := tripletAngles_ok rows ch (h ch (List.mem_cons_self ch rest))
      (List.range (ch.length - 2)) (fun k hk => by
        have := List.mem_range.mp hk; omega)
    obtain ⟨zs, hz, hzero⟩ := ih (fun c hc => h c (List.mem_cons_of_mem ch hc))
    by_cases he : l.isEmpty
    · refine ⟨zs, ?_, hzero⟩
      simp only [chainErrs, angleTriplets, hl, exBind_ok, hz, he]
      simp [exPure_ok]
    · refine ⟨0 :: zs, ?_, ?_⟩
      · simp only [chainErrs, angleTriplets, hl, exBind_ok, hz, he]
        simp only [Bool.false_eq_true, if_false]
        have : meanL (List.zipWith (fun a b => |a - b|) l l) = 0 := by
          rw [zipWith_abs_sub_self]
          exact meanL_zeroes _ (by simp)
        rw [this, exPure_ok]
      · intro z hz2
        rcases List.mem_cons.mp hz2 with rfl | hz2
        · rfl
        · exact hzero z hz2

theorem compute_angular_error_self (rows : List (List ℝ)) (chains : List (List Nat))
    (h : ∀ ch ∈ chains, ∀ j ∈ ch, j < rows.length) :
    compute_angular_error rows rows chains = .ok 0 := by
  obtain ⟨zs, hz, hzero⟩ := chainErrs_self_zero rows chains h
  simp only [compute_angular_error, hz, exBind_ok]
  by_cases he : zs.isEmpty
  · simp [he, exPure_ok]
  · simp only [he, Bool.false_eq_true, if_false]
    rw [meanL_zeroes zs hzero, zero_div, exPure_ok]

theorem compute_positional_error_self (rows : List (List ℝ))
    (weights : Option (List (Nat × ℝ))) :
    compute_positional_error rows rows weights none =
      .ok (0, (List.range rows.length).map (fun i => (i, (0 : ℝ)))) := by
  have hp := posEntries_self_none rows (List.range rows.length)
    (fun i hi => List.mem_range.mp hi)
  simp only [compute_positional_error, hp, exBind_ok]
  have hwe : (((List.range rows.length).map (fun i => (i, (0 : ℝ)))).map
      (fun e => weightOf weights e.1 * e.2)).sum = 0 := by
    apply List.sum_eq_zero
    intro x hx
    simp only [List.mem_map] at hx
    obtain ⟨e, ⟨a, ha, rfl⟩, rfl⟩ := hx
    simp
  rw [hwe]
  by_cases h0 : (((List.range rows.length).map (fun i => (i, (0 : ℝ)))).map
      (fun e => weightOf weights e.1)).sum = 0
  · simp [h0, exPure_ok]
  · simp [h0, zero_div, exPure_ok]

/-- Inversion of a successful `score_frame` call: the fields of the result
in terms of the positional and angular computations, and the state update. -/
theorem score_frame_ok_fields (eng : ScoringEngine) (user expert : NArr)
    (mask : Option (List Bool)) (r : ScoringResult) (eng2 : ScoringEngine)
    (h : score_frame eng user expert mask = (.ok r, eng2)) :
    (∃ pe, compute_positional_error user.rows expert.rows
        (if user.rows.length = 21 then some HAND_JOINT_WEIGHTS else none) mask = .ok pe ∧
      r.per_joint_errors = pe.2 ∧ r.top_error_joints = get_top_error_joints pe.2 3 ∧
      r.positional_score = error_to_score eng.k_scaling pe.1) ∧
    (∃ ae, compute_angular_error user.rows expert.rows FINGER_CHAINS = .ok ae ∧
      r.angular_score = error_to_score eng.k_scaling ae) ∧
    r.overall_score = (smooth_score eng r.raw_score).1 ∧
    eng2 = (smooth_score eng r.raw_score).2 := by
  unfold score_frame at h
  split at h
  · exact absurd h (by simp)
  · split at h
    · exact absurd h (by simp)
    · rename_i pe hpe
      split at h
      · exact absurd h (by simp)
      · rename_i ae hae
        rw [Prod.mk.injEq] at h
        obtain ⟨h1, h2⟩ := h
        rw [Except.ok.injEq] at h1
        subst h1
        exact ⟨⟨pe, hpe, rfl, rfl, rfl⟩, ⟨ae, hae, rfl⟩, rfl, h2.symm⟩

/-- Entries recorded by the positional loop: indices come from the index
list, and for a strictly increasing index list the entries are strictly
increasing in their joint index (the dict is built in ascending order). -/
theorem posEntries_sorted (user expert : List (List ℝ)) (mask : Option (List Bool)) :
    ∀ (idxs : List Nat) (l : List (Nat × ℝ)),
      posEntries user expert mask idxs = .ok l →
      (∀ e ∈ l, e.1 ∈ idxs) ∧
      (idxs.Pairwise (· < ·) → l.Pairwise (fun a b => a.1 < b.1)) := by
  intro idxs
  induction idxs with
  | nil =>
    intro l h
    simp only [posEntries, Except.ok.injEq] at h
    subst h
    exact ⟨by simp, fun _ => List.Pairwise.nil⟩
  | cons i is ih =>
    intro l h
    have step : ∀ (t : List (Nat × ℝ)) (d : ℝ),
        posEntries user expert mask is = .ok t → l = (i, d) :: t →
        (∀ e ∈ l, e.1 ∈ i :: is) ∧
        ((i :: is).Pairwise (· < ·) → l.Pairwise (fun a b => a.1 < b.1)) := by
      intro t d ht hl
      obtain ⟨hmem, hsort⟩ := ih t ht
      subst hl
      constructor
      · intro e he
        rcases List.mem_cons.mp he with rfl | he2
        · exact List.mem_cons_self i is
        · exact List.mem_cons_of_mem i (hmem e he2)
      · intro hp
        refine List.Pairwise.cons ?_ (hsort hp.of_cons)
        intro b hb
        exact List.rel_of_pairwise_cons hp (hmem b hb)
    have tailOnly : posEntries user expert mask is = .ok l →
        (∀ e ∈ l, e.1 ∈ i :: is) ∧
        ((i :: is).Pairwise (· < ·) → l.Pairwise (fun a b => a.1 < b.1)) := by
      intro ht
      obtain ⟨hmem, hsort⟩ := ih l ht
      exact ⟨fun e he => List.mem_cons_of_mem i (hmem e he),
        fun hp => hsort hp.of_cons⟩
    cases mask with
    | none =>
      simp only [posEntries] at h
      cases hu : idxE user i with
      | error e => rw [hu, exBind_error] at h; exact absurd h (by simp)
      | ok u =>
        rw [hu, exBind_ok] at h
        cases he : idxE expert i with
        | error e => rw [he, exBind_error] at h; exact absurd h (by simp)
        | ok ex =>
          rw [he, exBind_ok] at h
          cases hr : posEntries user expert none is with
          | error e => rw [hr, exBind_error] at h; exact absurd h (by simp)
          | ok t =>
            rw [hr, exBind_ok, exPure_ok, Except.ok.injEq] at h
            exact step t _ hr h.symm
    | some m =>
      simp only [posEntries] at h
      split at h
      · exact absurd h (by simp)
      · rename_i b heq
        by_cases hb : b = true
        · subst hb
          rw [if_pos rfl] at h
          cases hu : idxE user i with
          | error e => rw [hu, exBind_error] at h; exact absurd h (by simp)
          | ok u =>
            rw [hu, exBind_ok] at h
            cases he : idxE expert i with
            | error e => rw [he, exBind_error] at h; exact absurd h (by simp)
            | ok ex =>
              rw [he, exBind_ok] at h
              cases hr : posEntries user expert (some m) is with
              | error e => rw [hr, exBind_error] at h; exact absurd h (by simp)
              | ok t =>
                rw [hr, exBind_ok, exPure_ok, Except.ok.injEq] at h
                exact step t _ hr h.symm
        · rw [if_neg hb] at h
          exact tailOnly h

/-- With an all-`false` mask every joint is skipped. -/
theorem posEntries_all_false (user expert : List (List ℝ)) (n : Nat) :
    ∀ idxs : List Nat, (∀ i ∈ idxs, i < n) →
      posEntries user expert (some (List.replicate n false)) idxs = .ok [] := by
  intro idxs
  induction idxs with
  | nil => intro _; simp [posEntries]
  | cons i is ih =>
    intro h
    have hi : i < (List.replicate n false).length := by
      simpa using h i (List.mem_cons_self i is)
    have ht := ih (fun j hj => h j (List.mem_cons_of_mem i hj))
    simp only [posEntries, idxE, dif_pos hi, List.get_replicate]
    simpa using ht

/-- Inversion: the per-joint dict of a successful
`compute_positional_error` is exactly the loop's entry list. -/
theorem compute_positional_error_entries (user expert : List (List ℝ))
    (weights : Option (List (Nat × ℝ))) (mask : Option (List Bool))
    (pe : ℝ × List (Nat × ℝ))
    (h : compute_positional_error user expert weights mask = .ok pe) :
    posEntries user expert mask (List.range user.length) = .ok pe.2 := by
  unfold compute_positional_error at h
  cases hq : posEntries user expert mask (List.range user.length) with
  | error e => rw [hq, exBind_error] at h; exact absurd h (by simp)
  | ok entries =>
    rw [hq, exBind_ok] at h
    simp only [exPure_ok] at h
    split at h <;>
    · cases h
      rfl

theorem error_to_score_zero : error_to_score (500 : ℝ) 0 = 100 := by
  norm_num [error_to_score]

/-- With all errors 0 (ties everywhere), the stable sort keeps the
ascending order, so the top-3 list is `[0, 1, 2]`. -/
theorem top_r0 :
    get_top_error_joints ((List.range 21).map (fun i => (i, (0 : ℝ)))) 3 = [0, 1, 2] := by
  rw [get_top_error_joints, sortDescBy_const_key]
  · rw [← List.map_take, List.take_range, List.map_map]
    rfl
  · intro a ha b hb
    obtain ⟨i, _, rfl⟩ := List.mem_map.mp ha
    obtain ⟨j, _, rfl⟩ := List.mem_map.mp hb
    rfl

/-- Scoring a 21-joint all-zero frame against itself, for any mask whose
positional pass returns error 0 with entry list `entries`. -/
theorem score_frame_zeros_eval_aux (mask : Option (List Bool))
    (entries : List (Nat × ℝ))
    (hpos : compute_positional_error zeros21x2.rows zeros21x2.rows
        (some HAND_JOINT_WEIGHTS) mask = .ok (0, entries)) :
    score_frame defaultEngine zeros21x2 zeros21x2 mask =
      (.ok { overall_score := 100, raw_score := 100, per_joint_errors := entries,
             top_error_joints := get_top_error_joints entries 3,
             positional_score := 100, angular_score := 100, timing_penalty := 0 },
       { defaultEngine with ema_score := some 100 }) := by
  have hang : compute_angular_error zeros21x2.rows zeros21x2.rows FINGER_CHAINS = .ok 0 :=
    compute_angular_error_self _ _ (by
      intro ch hch j hj
      fin_cases hch <;> fin_cases hj <;> simp [zeros21x2])
  have hlen : zeros21x2.rows.length = 21 := by simp [zeros21x2]
  have hraw : (0.6 : ℝ) * 100 + 0.4 * 100 = 100 := by norm_num
  unfold score_frame
  rw [if_neg (by simp), hlen, if_pos rfl, hpos]
  simp only [hang, defaultEngine, error_to_score_zero, hraw, smooth_score]

theorem score_frame_self_eval :
    score_frame defaultEngine zeros21x2 zeros21x2 none =
      (.ok r0, { defaultEngine with ema_score := some 100 }) := by
  have h := score_frame_zeros_eval_aux none ((List.range 21).map (fun i => (i, 0)))
    (by simpa [zeros21x2] using
      compute_positional_error_self zeros21x2.rows (some HAND_JOINT_WEIGHTS))
  rw [h]
  rw [r0, top_r0]

theorem compute_positional_error_false_mask :
    compute_positional_error zeros21x2.rows zeros21x2.rows (some HAND_JOINT_WEIGHTS)
      (some (List.replicate 21 false)) = .ok (0, []) := by
  unfold compute_positional_error
  rw [show zeros21x2.rows.length = 21 from by simp [zeros21x2]]
  rw [posEntries_all_false zeros21x2.rows zeros21x2.rows 21 (List.range 21)
    (fun i hi => List.mem_range.mp hi)]
  simp [exBind_ok, exPure_ok]

theorem score_frame_false_mask_eval :
    score_frame defaultEngine zeros21x2 zeros21x2 (some (List.replicate 21 false)) =
      (.ok r0e, { defaultEngine with ema_score := some 100 }) := by
  have h := score_frame_zeros_eval_aux (some (List.replicate 21 false)) []
    compute_positional_error_false_mask
  rw [h]
  rfl

/-- C5 (amended): `score_frame` raises the shape-mismatch error exactly
when the two arrays differ in shape (joint count or column count), and in
that case no result is produced and the engine state is unchanged. -/
theorem C5_score_frame_shape (eng : ScoringEngine) (user expert : NArr)
    (mask : Option (List Bool)) :
    ((score_frame eng user expert mask).1 = .error .shapeMismatch ↔
      user.shape ≠ expert.shape) ∧
    (user.shape ≠ expert.shape →
      score_frame eng user expert mask = (.error .shapeMismatch, eng)) := by
  by_cases hs : user.shape ≠ expert.shape
  · have heq : score_frame eng user expert mask = (.error .shapeMismatch, eng) := by
      unfold score_frame
      rw [if_pos hs]
    exact ⟨⟨fun _ => hs, fun _ => by rw [heq]⟩, fun _ => heq⟩
  · refine ⟨⟨?_, fun h => absurd h hs⟩, fun h => absurd h hs⟩
    intro h
    exfalso
    unfold score_frame at h
    rw [if_neg hs] at h
    split at h
    · simp at h
    · split at h
      · simp at h
      · simp at h

/-- C5 counterexample to the claim as stated: equal joint counts (21)
with different column counts still raise the shape-mismatch error. -/
theorem C5_joint_count_counterexample :
    zeros21x2.shape.1 = zeros21x3.shape.1 ∧
    (score_frame defaultEngine zeros21x2 zeros21x3 none).1 = .error .shapeMismatch := by
  constructor
  · rfl
  · unfold score_frame
    rw [if_pos (by simp [NArr.shape, zeros21x2, zeros21x3])]

theorem C5_score_frame_shape_witness :
    score_frame defaultEngine zeros21x3 zeros21x2 none =
      (.error .shapeMismatch, defaultEngine) :=
  (C5_score_frame_shape defaultEngine zeros21x3 zeros21x2 none).2
    (by simp [NArr.shape, zeros21x2, zeros21x3])

/-- C6: on a fresh/reset engine the first `score_frame` call returns
`overall_score = raw_score` exactly and seeds the EMA with it; on every
later call `overall_score = α·raw + (1−α)·previous smoothed value`. -/
theorem C6_ema_smoothing (eng : ScoringEngine) (user expert : NArr)
    (mask : Option (List Bool)) (r : ScoringResult) (eng2 : ScoringEngine)
    (h : score_frame eng user expert mask = (.ok r, eng2)) :
    (eng.ema_score = none →
      r.overall_score = r.raw_score ∧ eng2.ema_score = some r.raw_score) ∧
    (∀ prev, eng.ema_score = some prev →
      r.overall_score = eng.ema_alpha * r.raw_score + (1 - eng.ema_alpha) * prev) := by
  obtain ⟨_, _, hov, heng⟩ := score_frame_ok_fields eng user expert mask r eng2 h
  constructor
  · intro hn
    constructor
    · rw [hov]; unfold smooth_score; rw [hn]
    · rw [heng]; unfold smooth_score; rw [hn]
  · intro prev hp
    rw [hov]; unfold smooth_score; rw [hp]

theorem C6_ema_smoothing_witness :
    r0.overall_score = r0.raw_score ∧
    ({ defaultEngine with ema_score := some 100 } : ScoringEngine).ema_score =
      some r0.raw_score :=
  (C6_ema_smoothing defaultEngine zeros21x2 zeros21x2 none r0
    { defaultEngine with ema_score := some 100 } score_frame_self_eval).1 rfl

/-- C8: `top_error_joints` lists the indices of the first `3` entries of a
permutation of the per-joint error dict that is sorted by strictly larger
error first and, on exactly equal errors, by ascending joint index. -/
theorem C8_top_error_joints (eng : ScoringEngine) (user expert : NArr)
    (mask : Option (List Bool)) (r : ScoringResult) (eng2 : ScoringEngine)
    (h : score_frame eng user expert mask = (.ok r, eng2)) :
    ∃ s : List (Nat × ℝ), s.Perm r.per_joint_errors ∧
      s.Pairwise (fun a b => b.2 < a.2 ∨ (a.2 = b.2 ∧ a.1 < b.1)) ∧
      r.top_error_joints = (s.take 3).map Prod.fst := by
  obtain ⟨⟨pe, hpe, hpje, htop, _⟩, _, _, _⟩ :=
    score_frame_ok_fields eng user expert mask r eng2 h
  have hent := compute_positional_error_entries _ _ _ _ _ hpe
  have hsorted := (posEntries_sorted user.rows expert.rows mask _ _ hent).2
    (List.pairwise_lt_range _)
  refine ⟨sortDescBy Prod.snd pe.2, ?_, ?_, ?_⟩
  · rw [hpje]; exact sortDescBy_perm _ _
  · exact sortDescBy_pairwise_lex _ hsorted
  · rw [htop]; rfl

theorem C8_top_error_joints_witness :
    ∃ s : List (Nat × ℝ), s.Perm r0.per_joint_errors ∧
      s.Pairwise (fun a b => b.2 < a.2 ∨ (a.2 = b.2 ∧ a.1 < b.1)) ∧
      r0.top_error_joints = (s.take 3).map Prod.fst :=
  C8_top_error_joints defaultEngine zeros21x2 zeros21x2 none r0
    { defaultEngine with ema_score := some 100 } score_frame_self_eval

/-- C9: the angular score of `score_frame` does not depend on the
confidence mask — two successful calls on the same skeleton pair with any
two masks yield the same `angular_score`. -/
theorem C9_angular_independent_of_mask (eng : ScoringEngine) (user expert : NArr)
    (m1 m2 : Option (List Bool)) (r1 r2 : ScoringResult) (e1 e2 : ScoringEngine)
    (h1 : score_frame eng user expert m1 = (.ok r1, e1))
    (h2 : score_frame eng user expert m2 = (.ok r2, e2)) :
    r1.angular_score = r2.angular_score := by
  obtain ⟨_, ⟨a1, ha1, hr1⟩, _, _⟩ := score_frame_ok_fields eng user expert m1 r1 e1 h1
  obtain ⟨_, ⟨a2, ha2, hr2⟩, _, _⟩ := score_frame_ok_fields eng user expert m2 r2 e2 h2
  rw [ha1] at ha2
  rw [Except.ok.injEq] at ha2
  rw [hr1, hr2, ha2]

theorem C9_angular_independent_of_mask_witness :
    r0.angular_score = r0e.angular_score :=
  C9_angular_independent_of_mask defaultEngine zeros21x2 zeros21x2 none
    (some (List.replicate 21 false)) r0 r0e
    { defaultEngine with ema_score := some 100 }
    { defaultEngine with ema_score := some 100 }
    score_frame_self_eval score_frame_false_mask_eval

/-! ### Cue-mapper evaluations and claims -/

/-- C7: whenever `generate_cues` returns, the list has at most `max_cues`
entries, no two with the same text, is sorted by non-increasing priority,
and equal-priority cues keep the order the detectors produced them in
(filtering at any fixed priority gives a sublist of the deduplicated
detector output). -/
theorem C7_generate_cues_spec (user expert : NArr) (pje : List (Nat × ℝ))
    (top : List Nat) (toff : ℝ) (maxc : Nat) (out : List Cue)
    (h : generate_cues user expert pje top toff maxc = .ok out) :
    out.length ≤ maxc ∧
    out.Pairwise (fun a b => a.text ≠ b.text) ∧
    out.Pairwise (fun a b => b.priority ≤ a.priority) ∧
    ∃ raw, rawCues user expert pje top toff = .ok raw ∧
      ∀ p : ℝ, List.Sublist (out.filter (fun c => decide (c.priority = p)))
        ((deduplicate_cues raw).filter (fun c => decide (c.priority = p))) := by
  unfold generate_cues at h
  cases hr : rawCues user expert pje top toff with
  | error e => rw [hr] at h; exact absurd h (by simp [Except.map])
  | ok raw =>
    rw [hr] at h
    simp only [Except.map, Except.ok.injEq] at h
    subst h
    refine ⟨List.length_take_le _ _, ?_, ?_, raw, rfl, ?_⟩
    · exact List.Pairwise.sublist (List.take_sublist _ _)
        (((sortDescBy_perm Cue.priority (deduplicate_cues raw)).pairwise_iff
          (fun hab => Ne.symm hab)).mpr (deduplicate_cues_pairwise_text raw))
    · exact List.Pairwise.sublist (List.take_sublist _ _)
        (sortDescBy_sorted Cue.priority (deduplicate_cues raw))
    · intro p
      have hst := sortDescBy_filter_key Cue.priority (deduplicate_cues raw) p
      have h1 : List.Sublist
          (((sortDescBy Cue.priority (deduplicate_cues raw)).take maxc).filter
            (fun c => decide (c.priority = p)))
          ((sortDescBy Cue.priority (deduplicate_cues raw)).filter
            (fun c => decide (c.priority = p))) :=
        List.Sublist.filter _ (List.take_sublist _ _)
      rw [hst] at h1
      exact h1

theorem meanL_replicate (n : Nat) (x : ℝ) (h : n ≠ 0) :
    meanL (List.replicate n x) = x := by
  rw [meanL, List.sum_replicate, List.length_replicate, nsmul_eq_mul]
  have : (n : ℝ) ≠ 0 := Nat.cast_ne_zero.mpr h
  field_simp

theorem colMeans_zeros21x2 : colMeans zeros21x2 = [0, 0] := by
  rw [colMeans]
  show (List.range 2).map _ = _
  rw [show List.range 2 = [0, 1] from rfl]
  simp [zeros21x2, List.map_replicate, meanL_replicate]
  norm_num [meanL]

theorem detect_position_zeros : detect_position_error zeros21x2 zeros21x2 = none := by
  simp only [detect_position_error, colMeans_zeros21x2]
  norm_num [vecSub, argmaxAbs, argmaxAbsAux, POSITION_THRESHOLD]

theorem detect_rotation_self (a : NArr) (h0 : 0 < a.rows.length)
    (h9 : 9 < a.rows.length) : detect_rotation_error a a = .ok none := by
  rw [detect_rotation_error]
  simp only [idxE, dif_pos h0, dif_pos h9, exBind_ok, sub_self]
  norm_num [ANGLE_THRESHOLD, exPure_ok]

theorem detect_spread_const (row : List ℝ) (a : NArr)
    (ha : a.rows = List.replicate 21 row) : detect_spread_error a a = .ok none := by
  have hl : a.rows.length = 21 := by rw [ha]; simp
  have hget : ∀ (i : Nat) (h : i < a.rows.length), a.rows.get ⟨i, h⟩ = row := by
    intro i hi
    have hm := a.rows.get_mem i hi
    set x := a.rows.get ⟨i, hi⟩ with hx
    rw [ha] at hm
    exact List.eq_of_mem_replicate hm
  have h4 : (4 : Nat) < a.rows.length := by omega
  have h8 : (8 : Nat) < a.rows.length := by omega
  have h12 : (12 : Nat) < a.rows.length := by omega
  have h16 : (16 : Nat) < a.rows.length := by omega
  have h20 : (20 : Nat) < a.rows.length := by omega
  have hpd : pairDists a spreadPairs = .ok [0, 0, 0, 0] := by
    simp only [spreadPairs, pairDists, idxE, dif_pos h4, dif_pos h8, dif_pos h12,
      dif_pos h16, dif_pos h20, exBind_ok]
    rw [hget 4 h4, hget 8 h8, hget 12 h12, hget 16 h16, hget 20 h20]
    simp [euclidean_distance_self, exPure_ok, exBind_ok]
  have hav : avgSpread a = .ok 0 := by
    rw [avgSpread]
    rw [hpd, exBind_ok]
    norm_num [meanL, exPure_ok]
  rw [detect_spread_error]
  rw [if_neg (by rw [hl]; decide)]
  rw [hav, exBind_ok, exBind_ok]
  rw [if_pos (by norm_num)]
  exact exPure_ok none

theorem curl_cues_no_top (user expert : NArr) : curl_cues user expert [] = .ok [] := by
  rw [curl_cues]
  rw [show FINGER_CHAINS.enum =
    [(0, [0, 1, 2, 3, 4]), (1, [0, 5, 6, 7, 8]), (2, [0, 9, 10, 11, 12]),
     (3, [0, 13, 14, 15, 16]), (4, [0, 17, 18, 19, 20])] from rfl]
  simp [curlAux]

theorem rawCues_zeros : rawCues zeros21x2 zeros21x2 [] [] 0 = .ok [perfectCue] := by
  rw [rawCues]
  rw [detect_position_zeros]
  rw [detect_rotation_self zeros21x2 (by simp [zeros21x2]) (by simp [zeros21x2]),
    exBind_ok]
  rw [detect_spread_const [0, 0] zeros21x2 rfl, exBind_ok]
  rw [curl_cues_no_top, exBind_ok]
  norm_num [get_positive_cue, error_to_score, meanL, perfectCue, exPure_ok]

theorem generate_cues_zeros_eval :
    generate_cues zeros21x2 zeros21x2 [] [] 0 2 = .ok [perfectCue] := by
  rw [generate_cues, rawCues_zeros]
  simp only [Except.map]
  rw [show deduplicate_cues [perfectCue] = [perfectCue] from by
    simp [deduplicate_cues, dedupAux]]
  rfl

theorem C7_generate_cues_spec_witness :
    ([perfectCue] : List Cue).length ≤ 2 ∧
    ([perfectCue] : List Cue).Pairwise (fun a b => a.text ≠ b.text) ∧
    ([perfectCue] : List Cue).Pairwise (fun a b => b.priority ≤ a.priority) ∧
    ∃ raw, rawCues zeros21x2 zeros21x2 [] [] 0 = .ok raw ∧
      ∀ p : ℝ, List.Sublist
        (([perfectCue] : List Cue).filter (fun c => decide (c.priority = p)))
        ((deduplicate_cues raw).filter (fun c => decide (c.priority = p))) :=
  C7_generate_cues_spec zeros21x2 zeros21x2 [] [] 0 2 [perfectCue]
    generate_cues_zeros_eval

theorem colMeans_ones3rd : colMeans ones3rd = [0, 0, 1] := by
  rw [colMeans]
  show (List.range 3).map _ = _
  rw [show List.range 3 = [0, 1, 2] from rfl]
  simp [ones3rd, List.map_replicate, meanL_replicate]
  norm_num [meanL]

theorem colMeans_zeros21x3 : colMeans zeros21x3 = [0, 0, 0] := by
  rw [colMeans]
  show (List.range 3).map _ = _
  rw [show List.range 3 = [0, 1, 2] from rfl]
  simp [zeros21x3, List.map_replicate, meanL_replicate]
  norm_num [meanL]

theorem C10diff : vecSub (colMeans ones3rd) (colMeans zeros21x3) = [0, 0, 1] := by
  rw [colMeans_ones3rd, colMeans_zeros21x3]
  norm_num [vecSub]

theorem C10argmax : argmaxAbs [0, 0, 1] = 2 := by
  norm_num [argmaxAbs, argmaxAbsAux]

theorem detect_position_C10 :
    detect_position_error ones3rd zeros21x3 = some ("hand_too_left", "right") := by
  simp only [detect_position_error, C10diff, C10argmax]
  norm_num [POSITION_THRESHOLD]

theorem vecSub_self_getD (p : List ℝ) (k : Nat) : (vecSub p p).getD k 0 = 0 := by
  rw [vecSub, List.zipWith_same]
  induction p generalizing k with
  | nil => simp
  | cons a t ih =>
    cases k with
    | zero => simp
    | succ k => simpa using ih k

theorem atan2_zero_zero : atan2 0 0 = 0 := by
  norm_num [atan2]

theorem rows_get_const (a : NArr) (row : List ℝ) (ha : a.rows = List.replicate 21 row)
    (i : Nat) (hi : i < a.rows.length) : a.rows.get ⟨i, hi⟩ = row := by
  have hm := a.rows.get_mem i hi
  set x := a.rows.get ⟨i, hi⟩ with hx
  rw [ha] at hm
  exact List.eq_of_mem_replicate hm

theorem detect_rotation_const (a b : NArr) (ra rb : List ℝ)
    (ha : a.rows = List.replicate 21 ra) (hb : b.rows = List.replicate 21 rb) :
    detect_rotation_error a b = .ok none := by
  have h0a : 0 < a.rows.length := by rw [ha]; simp
  have h9a : 9 < a.rows.length := by rw [ha]; simp
  have h0b : 0 < b.rows.length := by rw [hb]; simp
  have h9b : 9 < b.rows.length := by rw [hb]; simp
  rw [detect_rotation_error]
  simp only [idxE, dif_pos h0a, dif_pos h9a, dif_pos h0b, dif_pos h9b, exBind_ok]
  rw [rows_get_const a ra ha 0 h0a, rows_get_const a ra ha 9 h9a,
    rows_get_const b rb hb 0 h0b, rows_get_const b rb hb 9 h9b]
  rw [vecSub_self_getD, vecSub_self_getD, vecSub_self_getD, vecSub_self_getD,
    atan2_zero_zero]
  norm_num [ANGLE_THRESHOLD, degreesR, exPure_ok]

theorem avgSpread_const (a : NArr) (row : List ℝ)
    (ha : a.rows = List.replicate 21 row) : avgSpread a = .ok 0 := by
  have hl : a.rows.length = 21 := by rw [ha]; simp
  have h4 : (4 : Nat) < a.rows.length := by omega
  have h8 : (8 : Nat) < a.rows.length := by omega
  have h12 : (12 : Nat) < a.rows.length := by omega
  have h16 : (16 : Nat) < a.rows.length := by omega
  have h20 : (20 : Nat) < a.rows.length := by omega
  have hpd : pairDists a spreadPairs = .ok [0, 0, 0, 0] := by
    simp only [spreadPairs, pairDists, idxE, dif_pos h4, dif_pos h8, dif_pos h12,
      dif_pos h16, dif_pos h20, exBind_ok]
    rw [rows_get_const a row ha 4 h4, rows_get_const a row ha 8 h8,
      rows_get_const a row ha 12 h12, rows_get_const a row ha 16 h16,
      rows_get_const a row ha 20 h20]
    simp [euclidean_distance_self, exPure_ok, exBind_ok]
  rw [avgSpread]
  rw [hpd, exBind_ok]
  norm_num [meanL, exPure_ok]

theorem detect_spread_const2 (a b : NArr) (ra rb : List ℝ)
    (ha : a.rows = List.replicate 21 ra) (hb : b.rows = List.replicate 21 rb) :
    detect_spread_error a b = .ok none := by
  have hl : a.rows.length = 21 := by rw [ha]; simp
  rw [detect_spread_error]
  rw [if_neg (by rw [hl]; decide)]
  rw [avgSpread_const a ra ha, exBind_ok, avgSpread_const b rb hb, exBind_ok]
  rw [if_pos (by norm_num)]
  exact exPure_ok none

theorem rawCues_C10 :
    rawCues ones3rd zeros21x3 [] [] 0 =
      .ok [template_to_cue "hand_too_left" 0.9 (List.range 21) none, perfectCue] := by
  rw [rawCues]
  rw [detect_position_C10]
  rw [detect_rotation_const ones3rd zeros21x3 [0, 0, 1] [0, 0, 0] rfl rfl, exBind_ok]
  rw [detect_spread_const2 ones3rd zeros21x3 [0, 0, 1] [0, 0, 0] rfl rfl, exBind_ok]
  rw [curl_cues_no_top, exBind_ok]
  rw [show ones3rd.rows.length = 21 from by simp [ones3rd]]
  norm_num [get_positive_cue, error_to_score, meanL, perfectCue, exPure_ok]

theorem generate_cues_C10_eval :
    generate_cues ones3rd zeros21x3 [] [] 0 2 =
      .ok [template_to_cue "hand_too_left" 0.9 (List.range 21) none, perfectCue] := by
  rw [generate_cues, rawCues_C10]
  simp only [Except.map]
  have htext : (template_to_cue "hand_too_left" 0.9 (List.range 21) none).text =
      "Move hand to the right" := rfl
  have hdd : deduplicate_cues
      [template_to_cue "hand_too_left" 0.9 (List.range 21) none, perfectCue] =
      [template_to_cue "hand_too_left" 0.9 (List.range 21) none, perfectCue] := by
    rw [deduplicate_cues, dedupAux]
    rw [if_neg (by simp)]
    rw [dedupAux]
    rw [if_neg (by rw [htext]; simp [perfectCue])]
    rfl
  rw [hdd]
  have hsort : sortDescBy Cue.priority
      [template_to_cue "hand_too_left" 0.9 (List.range 21) none, perfectCue] =
      [template_to_cue "hand_too_left" 0.9 (List.range 21) none, perfectCue] := by
    rw [sortDescBy_cons, sortDescBy_cons]
    rw [show sortDescBy Cue.priority [] = [] from rfl]
    rw [insertDescBy, insertDescBy]
    rw [if_pos (by norm_num [template_to_cue, perfectCue])]
  rw [hsort]
  rfl

/-- C10: `detect_position_error` averages every column of its inputs, so a
pair of hands with identical x,y coordinates whose third column differs by
1 in mean makes column 2 the dominant axis and produces a horizontal
position cue ("Move hand to the right") through `generate_cues`. -/
theorem C10_position_third_column :
    ones3rd.pts = zeros21x3.pts ∧
    argmaxAbs (vecSub (colMeans ones3rd) (colMeans zeros21x3)) = 2 ∧
    detect_position_error ones3rd zeros21x3 = some ("hand_too_left", "right") ∧
    ∃ out, generate_cues ones3rd zeros21x3 [] [] 0 2 = .ok out ∧
      ∃ c ∈ out, c.text = "Move hand to the right" := by
  refine ⟨?_, ?_, detect_position_C10, ?_⟩
  · simp [NArr.pts, ones3rd, zeros21x3, List.map_replicate]
  · rw [C10diff]; exact C10argmax
  · refine ⟨_, generate_cues_C10_eval,
      ⟨template_to_cue "hand_too_left" 0.9 (List.range 21) none, by simp, rfl⟩⟩

/-! ### Alignment-engine lemmas and claims -/

theorem getD_replicate {γ : Type} (n i : Nat) (x d : γ) (h : i < n) :
    (List.replicate n x).getD i d = x := by
  induction n generalizing i with
  | zero => omega
  | succ n ih =>
    cases i with
    | zero => simp [List.replicate]
    | succ i => simpa [List.replicate] using ih i (by omega)

/-- C1: with a confidence column present, in-range anchor indices and
fewer than 2 anchors at or above the threshold, `align_hands` returns (does
not raise) the degraded result: quality `0.0`, identity 3×3 transform, and
`aligned_expert` equal to the raw expert x,y coordinates. -/
theorem C1_align_degraded (expert_hand user_hand : NArr) (anchor_indices : List Nat)
    (threshold : ℝ) (conf : List ℝ)
    (hconf : (split_coords_conf user_hand).2 = some conf)
    (hrange : ∀ i ∈ anchor_indices, i < conf.length)
    (hcount : (anchor_indices.countP
      (fun i => decide (threshold ≤ conf.getD i 0))) < 2) :
    align_hands expert_hand user_hand anchor_indices threshold =
      .ok { aligned_expert := (split_coords_conf expert_hand).1,
            transform_matrix := eye3, scale_factor := 1, translation := (0, 0),
            rotation_angle := 0, alignment_quality := 0 } := by
  have hall : anchor_indices.all (fun i => decide (i < conf.length)) = true :=
    List.all_eq_true.mpr (fun i hi => decide_eq_true (hrange i hi))
  have hmask : confidence_mask (split_coords_conf user_hand).2 anchor_indices
      threshold = .ok (anchor_indices.map
        (fun i => decide (threshold ≤ conf.getD i 0))) := by
    rw [hconf, confidence_mask]
    rw [if_pos hall]
  have hcnt : ((anchor_indices.map
      (fun i => decide (threshold ≤ conf.getD i 0))).countP id) < 2 := by
    rw [List.countP_map]
    simpa [Function.comp] using hcount
  rw [align_hands]
  rw [hmask, exBind_ok]
  rw [if_pos hcnt]
  rfl

theorem C1_align_degraded_witness :
    align_hands zeros21x2 zeros21x3 [0, 5, 9] 0.5 =
      .ok { aligned_expert := (split_coords_conf zeros21x2).1,
            transform_matrix := eye3, scale_factor := 1, translation := (0, 0),
            rotation_angle := 0, alignment_quality := 0 } :=
  C1_align_degraded zeros21x2 zeros21x3 [0, 5, 9] 0.5 (List.replicate 21 0)
    (by simp [split_coords_conf, zeros21x3, List.map_replicate])
    (by intro i hi; fin_cases hi <;> simp)
    (by
      simp only [List.countP_cons, List.countP_nil]
      rw [getD_replicate 21 0 (0 : ℝ) 0 (by norm_num),
        getD_replicate 21 5 (0 : ℝ) 0 (by norm_num),
        getD_replicate 21 9 (0 : ℝ) 0 (by norm_num)]
      norm_num)

theorem maskFilter_c2exp : maskFilter c2exp c2mask = c2exp := by
  simp [maskFilter, c2exp, c2mask]

theorem maskFilter_c2usr : maskFilter c2usr c2mask = c2usr := by
  simp [maskFilter, c2usr, c2mask]

theorem centroid_c2exp : centroidP c2exp = (0, 0) := by
  norm_num [centroidP, c2exp, meanL]

theorem centroid_c2usr : centroidP c2usr = (0, 0) := by
  norm_num [centroidP, c2usr, meanL]

theorem meanDist_c2exp : meanDistToCentroid c2exp = 4 := by
  rw [meanDistToCentroid, centroid_c2exp]
  simp only [c2exp, List.map_cons, List.map_nil, dist2_x]
  norm_num [meanL]

theorem meanDist_c2usr : meanDistToCentroid c2usr = 1 := by
  rw [meanDistToCentroid, centroid_c2usr]
  simp only [c2usr, List.map_cons, List.map_nil, dist2_x]
  norm_num [meanL]

theorem rms_c2exp : specRMSDistToCentroid c2exp = 5 := by
  rw [specRMSDistToCentroid, centroid_c2exp]
  have h25 : meanL (List.map (fun p => dist2 p ((0 : ℝ), (0 : ℝ)) ^ 2) c2exp) = 25 := by
    simp only [c2exp, List.map_cons, List.map_nil, dist2_x]
    norm_num [meanL]
  rw [h25, show (25 : ℝ) = 5 ^ 2 by norm_num]
  exact Real.sqrt_sq (by norm_num)

theorem rms_c2usr : specRMSDistToCentroid c2usr = 1 := by
  rw [specRMSDistToCentroid, centroid_c2usr]
  have h1 : meanL (List.map (fun p => dist2 p ((0 : ℝ), (0 : ℝ)) ^ 2) c2usr) = 1 := by
    simp only [c2usr, List.map_cons, List.map_nil, dist2_x]
    norm_num [meanL]
  rw [h1]
  exact Real.sqrt_one

/-- The scale component computed by `compute_anchor_transform` is the
ratio of the mean (not RMS) distances of the valid anchors to their
centroids, whenever the expert mean exceeds the `1e-6` guard and some
user anchor is valid. -/
theorem anchor_scale_mean_ratio (expert_anchors user_anchors : List Point2)
    (valid_mask : List Bool)
    (he : 1e-6 < meanDistToCentroid (maskFilter expert_anchors valid_mask))
    (hu : maskFilter user_anchors valid_mask ≠ []) :
    (compute_anchor_transform expert_anchors user_anchors valid_mask).1 =
      meanDistToCentroid (maskFilter user_anchors valid_mask) /
        meanDistToCentroid (maskFilter expert_anchors valid_mask) := by
  have hel : maskFilter expert_anchors valid_mask ≠ [] := by
    intro h0
    rw [h0] at he
    norm_num [meanDistToCentroid, meanL] at he
  have hfst : (compute_anchor_transform expert_anchors user_anchors valid_mask).1 =
      (let ev := maskFilter expert_anchors valid_mask
       let uv := maskFilter user_anchors valid_mask
       let expd := ev.map (fun p => dist2 p (centroidP ev))
       let usrd := uv.map (fun p => dist2 p (centroidP uv))
       let expS := if expd.length ≠ 0 then meanL expd else 1
       let usrS := if usrd.length ≠ 0 then meanL usrd else 1
       if 1e-6 < expS then usrS / expS else 1) := rfl
  rw [hfst]
  simp only []
  have hexpd : ((maskFilter expert_anchors valid_mask).map
      (fun p => dist2 p (centroidP (maskFilter expert_anchors valid_mask)))).length ≠ 0 := by
    simpa using hel
  have husrd : ((maskFilter user_anchors valid_mask).map
      (fun p => dist2 p (centroidP (maskFilter user_anchors valid_mask)))).length ≠ 0 := by
    simpa using hu
  rw [if_pos hexpd, if_pos husrd]
  rw [if_pos (by simpa [meanDistToCentroid] using he)]
  rw [meanDistToCentroid, meanDistToCentroid]

/-- C2 counterexample: for anchors with unequal distances to their
centroid, the code's scale (ratio of mean distances, here `1/4`) differs
from the spec's RMS ratio (here `1/5`). -/
theorem C2_rms_counterexample :
    2 ≤ c2mask.countP id ∧
    (compute_anchor_transform c2exp c2usr c2mask).1 ≠
      specRMSDistToCentroid (maskFilter c2usr c2mask) /
        specRMSDistToCentroid (maskFilter c2exp c2mask) := by
  constructor
  · decide
  · rw [anchor_scale_mean_ratio c2exp c2usr c2mask
      (by rw [maskFilter_c2exp, meanDist_c2exp]; norm_num)
      (by rw [maskFilter_c2usr]; simp [c2usr])]
    rw [maskFilter_c2exp, maskFilter_c2usr, meanDist_c2exp, meanDist_c2usr,
      rms_c2exp, rms_c2usr]
    norm_num

/-- C2 (amended): in anchor mode with valid anchors, the scale factor is
the ratio of the user anchors' **mean** distance to their centroid over
the expert anchors' mean distance (valid anchors only). -/
theorem C2_scale_mean_ratio (expert_anchors user_anchors : List Point2)
    (valid_mask : List Bool)
    (he : 1e-6 < meanDistToCentroid (maskFilter expert_anchors valid_mask))
    (hu : maskFilter user_anchors valid_mask ≠ []) :
    (compute_anchor_transform expert_anchors user_anchors valid_mask).1 =
      meanDistToCentroid (maskFilter user_anchors valid_mask) /
        meanDistToCentroid (maskFilter expert_anchors valid_mask) :=
  anchor_scale_mean_ratio expert_anchors user_anchors valid_mask he hu

theorem C2_scale_mean_ratio_witness :
    (compute_anchor_transform c2exp c2usr c2mask).1 =
      meanDistToCentroid (maskFilter c2usr c2mask) /
        meanDistToCentroid (maskFilter c2exp c2mask) :=
  C2_scale_mean_ratio c2exp c2usr c2mask
    (by rw [maskFilter_c2exp, meanDist_c2exp]; norm_num)
    (by rw [maskFilter_c2usr]; simp [c2usr])

/-! ### Normalizer lemmas and claims -/

theorem rot2Inv_rot2 (θ : ℝ) (p : Point2) : rot2Inv θ (rot2 θ p) = p := by
  rw [rot2, rot2Inv]
  have hc := Real.sin_sq_add_cos_sq θ
  refine Prod.ext ?_ ?_
  · show Real.cos θ * (Real.cos θ * p.1 - Real.sin θ * p.2) +
      Real.sin θ * (Real.sin θ * p.1 + Real.cos θ * p.2) = p.1
    linear_combination p.1 * hc
  · show -(Real.sin θ) * (Real.cos θ * p.1 - Real.sin θ * p.2) +
      Real.cos θ * (Real.sin θ * p.1 + Real.cos θ * p.2) = p.2
    linear_combination p.2 * hc

theorem pneg_pneg (p : Point2) : pneg (pneg p) = p := by
  simp [pneg]

theorem dist2_nonneg (p q : Point2) : 0 ≤ dist2 p q := Real.sqrt_nonneg _

theorem getD_mem_of_lt {l : List Point2} {i : Nat} (h : i < l.length) :
    l.getD i (0, 0) ∈ l := by
  rw [List.getD_eq_getElem l (0, 0) h]
  exact List.getElem_mem h

/-- The exact pointwise round trip of the normalizer's forward transform
through `invert_transform`: the recovered point differs from the original
by the fraction `e / (s + e)` of its distance to the (negated)
translation. -/
theorem roundtrip_point (s e θ : ℝ) (t p : Point2) (hs : 0 < s) (he : 0 < e) :
    dist2 (psub (pdiv (rot2Inv θ (rot2 θ (psmul s (padd p t)))) (s + e)) t) p =
      (e / (s + e)) * dist2 p (pneg t) := by
  rw [rot2Inv_rot2]
  have hse : s + e ≠ 0 := by positivity
  simp only [dist2, psub, pdiv, psmul, padd, pneg, normP]
  have e1 : s * (p.1 + t.1) / (s + e) - t.1 - p.1 = -(e * (p.1 + t.1) / (s + e)) := by
    field_simp
    ring
  have e2 : s * (p.2 + t.2) / (s + e) - t.2 - p.2 = -(e * (p.2 + t.2) / (s + e)) := by
    field_simp
    ring
  rw [e1, e2]
  have e3 : (-(e * (p.1 + t.1) / (s + e))) ^ 2 + (-(e * (p.2 + t.2) / (s + e))) ^ 2 =
      (e / (s + e)) ^ 2 * ((p.1 - -t.1) ^ 2 + (p.2 - -t.2) ^ 2) := by
    field_simp
    ring
  rw [e3, Real.sqrt_mul (by positivity), Real.sqrt_sq (by positivity)]

/-- The `i`-th normalized point is the wrist-translated, scaled, rotated
original point. -/
theorem normalize_hand_getD (pts : List Point2) (ts : ℝ) (i : Nat)
    (h : i < pts.length) :
    (normalize_hand pts ts).1.getD i (0, 0) =
      rot2 (normalize_hand pts ts).2.rotation
        (psmul (normalize_hand pts ts).2.scale
          (padd (pts.getD i (0, 0)) (normalize_hand pts ts).2.translation)) := by
  rw [normalize_hand]
  simp only []
  rw [getD_map_lt _ _ _ _ (by simpa using h), getD_map_lt _ _ _ _ (by simpa using h),
    getD_map_lt _ _ _ _ h]

theorem normalize_bpts_params :
    (normalize_hand bpts 1).2 = ⟨(-1, 0), 1, 0⟩ := by
  have href : compute_reference_length_hand bpts = 1 := by
    rw [compute_reference_length_hand,
      show bpts.getD 12 (0, 0) = ((2 : ℝ), (0 : ℝ)) from rfl,
      show bpts.getD 0 (0, 0) = ((1 : ℝ), (0 : ℝ)) from rfl, dist2_x]
    norm_num
  rw [normalize_hand]
  simp only []
  rw [href, if_pos (by norm_num : (1e-6 : ℝ) < 1)]
  rw [show bpts.getD 0 (0, 0) = ((1 : ℝ), (0 : ℝ)) from rfl,
    show bpts.getD 9 (0, 0) = ((2 : ℝ), (0 : ℝ)) from rfl]
  norm_num [pneg, padd, psmul, normP, atan2, degreesR, Real.sqrt_one,
    Real.arctan_zero, NormParams.mk.injEq, Prod.mk.injEq]

theorem normalize_cpts_params :
    (normalize_hand cpts 1).2 = ⟨(0, 0), 1, 0⟩ := by
  have href : compute_reference_length_hand cpts = 1 := by
    rw [compute_reference_length_hand,
      show cpts.getD 12 (0, 0) = ((1 : ℝ), (0 : ℝ)) from rfl,
      show cpts.getD 0 (0, 0) = ((0 : ℝ), (0 : ℝ)) from rfl, dist2_x]
    norm_num
  rw [normalize_hand]
  simp only []
  rw [href, if_pos (by norm_num : (1e-6 : ℝ) < 1)]
  rw [show cpts.getD 0 (0, 0) = ((0 : ℝ), (0 : ℝ)) from rfl,
    show cpts.getD 9 (0, 0) = ((1 : ℝ), (0 : ℝ)) from rfl]
  norm_num [pneg, padd, psmul, normP, atan2, degreesR, Real.sqrt_one,
    Real.arctan_zero, NormParams.mk.injEq, Prod.mk.injEq]

/-- C3 (as a code bug, at a concrete skeleton): `apply_transform` with the
params of `normalize_hand` is **not** the forward normalization (it maps
the wrist of `bpts` to `(2, 0)` where normalization maps it to `(0, 0)`),
and `invert_transform ∘ apply_transform` does not recover the input even
approximately (the wrist comes back about `(3, 0)` instead of `(1, 0)`). -/
theorem C3_apply_transform_divergence :
    (apply_transform bpts (normalize_hand bpts 1).2).getD 0 (0, 0) ≠
      (normalize_hand bpts 1).1.getD 0 (0, 0) ∧
    ¬ (dist2 ((invert_transform (apply_transform bpts (normalize_hand bpts 1).2)
        (normalize_hand bpts 1).2).getD 0 (0, 0)) (bpts.getD 0 (0, 0)) ≤ 1e-4) := by
  have hlen : bpts.length = 21 := rfl
  have h0 : bpts.getD 0 (0, 0) = ((1 : ℝ), (0 : ℝ)) := rfl
  have ha : (apply_transform bpts (normalize_hand bpts 1).2).getD 0 (0, 0) =
      ((2 : ℝ), (0 : ℝ)) := by
    rw [apply_transform, getD_map_lt _ _ _ _ (by rw [hlen]; norm_num)]
    rw [normalize_bpts_params, h0]
    norm_num [rot2, psmul, psub, Real.cos_zero, Real.sin_zero]
  have hn : (normalize_hand bpts 1).1.getD 0 (0, 0) = ((0 : ℝ), (0 : ℝ)) := by
    rw [normalize_hand_getD bpts 1 0 (by rw [hlen]; norm_num), normalize_bpts_params, h0]
    norm_num [rot2, psmul, padd, Real.cos_zero, Real.sin_zero]
  constructor
  · rw [ha, hn]
    intro hcontra
    have := congrArg Prod.fst hcontra
    norm_num at this
  · have hlen2 : (apply_transform bpts (normalize_hand bpts 1).2).length = 21 := by
      simp [apply_transform, hlen]
    have hi : (invert_transform (apply_transform bpts (normalize_hand bpts 1).2)
        (normalize_hand bpts 1).2).getD 0 (0, 0) =
        ((2 / (1 + 1e-8) + 1 : ℝ), (0 : ℝ)) := by
      rw [invert_transform, getD_map_lt _ _ _ _ (by rw [hlen2]; norm_num)]
      rw [ha, normalize_bpts_params]
      norm_num [rot2Inv, pdiv, psub, Real.cos_zero, Real.sin_zero]
    rw [hi, h0, dist2_x]
    norm_num
    rw [abs_of_pos (by norm_num)]
    norm_num

/-- C4 counterexample to the claim as stated: a non-degenerate skeleton
(reference length 1) with a joint at `x = 100000` is recovered with an
error of about `1e-3 > 1e-4`, because `invert_transform` divides by
`scale + 1e-8` instead of `scale`. -/
theorem C4_roundtrip_counterexample :
    1e-6 < compute_reference_length_hand cpts ∧
    ¬ (dist2 ((invert_transform (normalize_hand cpts 1).1
        (normalize_hand cpts 1).2).getD 3 (0, 0)) (cpts.getD 3 (0, 0)) ≤ 1e-4) := by
  have hlen : cpts.length = 21 := rfl
  have href : compute_reference_length_hand cpts = 1 := by
    rw [compute_reference_length_hand,
      show cpts.getD 12 (0, 0) = ((1 : ℝ), (0 : ℝ)) from rfl,
      show cpts.getD 0 (0, 0) = ((0 : ℝ), (0 : ℝ)) from rfl, dist2_x]
    norm_num
  constructor
  · rw [href]; norm_num
  · have h3 : (normalize_hand cpts 1).1.getD 3 (0, 0) = ((100000 : ℝ), (0 : ℝ)) := by
      rw [normalize_hand_getD cpts 1 3 (by rw [hlen]; norm_num), normalize_cpts_params,
        show cpts.getD 3 (0, 0) = ((100000 : ℝ), (0 : ℝ)) from rfl]
      norm_num [rot2, psmul, padd, Real.cos_zero, Real.sin_zero]
    have hlen1 : 3 < (normalize_hand cpts 1).1.length := by
      simp [normalize_hand, hlen]
    rw [invert_transform, getD_map_lt _ _ _ _ hlen1, h3, normalize_cpts_params,
      show cpts.getD 3 (0, 0) = ((100000 : ℝ), (0 : ℝ)) from rfl]
    norm_num [rot2Inv, pdiv, psub, Real.cos_zero, Real.sin_zero, dist2, normP,
      Real.sqrt_sq_eq_abs]
    rw [show (10000000000 : ℝ) = 100000 ^ 2 by norm_num,
      Real.sqrt_sq (by norm_num : (0:ℝ) ≤ 100000),
      show (10000000200000001 : ℝ) = 100000001 ^ 2 by norm_num,
      Real.sqrt_sq (by norm_num : (0:ℝ) ≤ 100000001)]
    norm_num

/-- C4 (amended): for a non-degenerate skeleton whose reference length
times each joint's distance to the wrist is at most `10^4`, inverting the
normalization recovers every original x,y point within `1e-4`. -/
theorem C4_roundtrip_bounded (pts : List Point2)
    (href : 1e-6 < compute_reference_length_hand pts)
    (hbound : ∀ p ∈ pts, compute_reference_length_hand pts *
      dist2 p (pts.getD 0 (0, 0)) ≤ 10000) :
    ∀ i, i < pts.length →
      dist2 ((invert_transform (normalize_hand pts 1).1
          (normalize_hand pts 1).2).getD i (0, 0)) (pts.getD i (0, 0)) ≤ 1e-4 := by
  intro i hi
  have href0 : (0 : ℝ) < compute_reference_length_hand pts :=
    lt_trans (by norm_num) href
  have hσ : (normalize_hand pts 1).2.scale = 1 / compute_reference_length_hand pts := by
    rw [normalize_hand]
    simp only []
    rw [if_pos href]
  have hτ : (normalize_hand pts 1).2.translation = pneg (pts.getD 0 (0, 0)) := rfl
  have hlen1 : i < (normalize_hand pts 1).1.length := by
    simpa [normalize_hand] using hi
  rw [invert_transform, getD_map_lt _ _ _ _ hlen1, normalize_hand_getD pts 1 i hi]
  rw [hσ, hτ]
  rw [roundtrip_point (1 / compute_reference_length_hand pts) 1e-8 _ _ _
    (by positivity) (by norm_num), pneg_pneg]
  set ref := compute_reference_length_hand pts with hrefd
  set d := dist2 (pts.getD i (0, 0)) (pts.getD 0 (0, 0)) with hd
  have hd0 : 0 ≤ d := dist2_nonneg _ _
  have hb : ref * d ≤ 10000 := hbound _ (getD_mem_of_lt hi)
  have step1 : (1e-8 : ℝ) / (1 / ref + 1e-8) * d ≤ 1e-8 / (1 / ref) * d := by
    apply mul_le_mul_of_nonneg_right _ hd0
    apply div_le_div_of_nonneg_left (by norm_num) (by positivity)
    linarith [le_refl (1 / ref)]
  have step2 : (1e-8 : ℝ) / (1 / ref) * d = 1e-8 * (ref * d) := by
    field_simp
    ring
  have step3 : (1e-8 : ℝ) * (ref * d) ≤ 1e-8 * 10000 := by
    apply mul_le_mul_of_nonneg_left hb (by norm_num)
  calc (1e-8 : ℝ) / (1 / ref + 1e-8) * d ≤ 1e-8 / (1 / ref) * d := step1
    _ = 1e-8 * (ref * d) := step2
    _ ≤ 1e-8 * 10000 := step3
    _ ≤ 1e-4 := by norm_num

theorem C4_roundtrip_bounded_witness :
    dist2 ((invert_transform (normalize_hand bpts 1).1
        (normalize_hand bpts 1).2).getD 3 (0, 0)) (bpts.getD 3 (0, 0)) ≤ 1e-4 :=
  C4_roundtrip_bounded bpts
    (by
      rw [show compute_reference_length_hand bpts = 1 from by
        rw [compute_reference_length_hand,
          show bpts.getD 12 (0, 0) = ((2 : ℝ), (0 : ℝ)) from rfl,
          show bpts.getD 0 (0, 0) = ((1 : ℝ), (0 : ℝ)) from rfl, dist2_x]
        norm_num]
      norm_num)
    (by
      intro p hp
      rw [show compute_reference_length_hand bpts = 1 from by
        rw [compute_reference_length_hand,
          show bpts.getD 12 (0, 0) = ((2 : ℝ), (0 : ℝ)) from rfl,
          show bpts.getD 0 (0, 0) = ((1 : ℝ), (0 : ℝ)) from rfl, dist2_x]
        norm_num]
      rw [show bpts.getD 0 (0, 0) = ((1 : ℝ), (0 : ℝ)) from rfl]
      fin_cases hp <;> rw [dist2_x] <;> norm_num)
    3 (by rw [show bpts.length = 21 from rfl]; norm_num)

end MCH

end
